import Mathlib

/-!
Verification of `tasks2subissues.py`.

Shallow embedding conventions:
* Python strings are modelled as `List Char` (`Str` below); `"…".data`
  converts a Lean string literal to this representation.
* `str.strip()` is modelled by `pyStrip` over the ASCII whitespace set.
* `re.sub(pattern, repl, body, 1)` for the fixed tasklist pattern
  ``` *\[tasklist\](.|\n)*?``` is modelled by an executable leftmost
  matcher (`matchLenAt` / `firstSplit`): greedy space run, literal
  `[tasklist]`, lazy middle up to the earliest closing triple backtick.
  The replacement string is a CPython replacement template: it is parsed
  by `parseTemplate`, a transcription of `re._parser.parse_template`
  restricted to this pattern (one unnamed capture group, so `state.groups
  = 1` and an empty `state.groupindex`) and to ASCII group names in
  `\g<...>`; malformed escapes yield `re.error`/`IndexError` messages, and
  a parsed template is expanded at the match with group 0 the whole match
  and group 1 the last character of the lazy middle (empty when the middle
  is empty, as Python substitutes the empty string for an unmatched
  group).
* The network is modelled by a `World` oracle; every outgoing request is
  recorded in a log, and Python exceptions become `Except Str` values.
-/

deriving instance DecidableEq for Except

namespace T2S

abbrev Str := List Char

/-- The backtick character (U+0060). -/
def backtick : Char := Char.ofNat 96

/-- ASCII whitespace as stripped by Python `str.strip()`. -/
def isPySpace (c : Char) : Bool :=
  c = ' ' || c = '\t' || c = '\n' || c = '\r' || c = Char.ofNat 11 || c = Char.ofNat 12

/-- Left part of Python `str.strip()`. -/
def lstrip (l : Str) : Str := l.dropWhile isPySpace

/-- Right part of Python `str.strip()`. -/
def rstrip (l : Str) : Str := (l.reverse.dropWhile isPySpace).reverse

/-- Python `str.strip()`. -/
def pyStrip (l : Str) : Str := rstrip (lstrip l)

/-- Python `str.split(sep)` for a one-character separator (keeps empty parts). -/
def splitOnChar (sep : Char) : Str → List Str
  | [] => [[]]
  | c :: rest =>
    if c = sep then [] :: splitOnChar sep rest
    else
      match splitOnChar sep rest with
      | [] => [[c]]
      | h :: t => (c :: h) :: t

/-- Constant `GITHUB_BASE_URL = "https://github.com/"`. -/
def GITHUB_BASE_URL : Str := ("https://github.com/").data

/-- The literal path segment `"issues"`. -/
def issuesSeg : Str := ("issues").data

/-- Model of `is_github_issue_url` from the source: strips the input, requires the
GitHub web origin as a prefix and a path of at least four segments with
segment 2 equal to `issues`. -/
def is_github_issue_url (url : Str) : Bool :=
  if GITHUB_BASE_URL.isPrefixOf (pyStrip url) then
    let issue_url := (pyStrip url).drop GITHUB_BASE_URL.length
    let parts := splitOnChar '/' issue_url
    decide (4 ≤ parts.length) && (parts.getD 2 [] == issuesSeg)
  else false

/-- Result record of `split_github_issue_url`. -/
structure IssueRef where
  owner : Str
  repo : Str
  issue_id : Str
deriving DecidableEq, Repr

/-- Model of `split_github_issue_url` from the source: removes the base URL (raising
`ValueError` when the prefix is absent, without stripping), splits on `/`
and requires at least four segments with segment 2 equal to `issues`. -/
def split_github_issue_url (issue_url : Str) : Except Str IssueRef :=
  if GITHUB_BASE_URL.isPrefixOf issue_url then
    let rest := issue_url.drop GITHUB_BASE_URL.length
    match splitOnChar '/' rest with
    | owner :: repo :: seg :: num :: _ =>
      if seg = issuesSeg then Except.ok ⟨owner, repo, num⟩
      else Except.error (("Invalid GitHub issue URL: ").data ++ rest)
    | _ => Except.error (("Invalid GitHub issue URL: ").data ++ rest)
  else Except.error (("GitHub issue URL must start with https://github.com/").data)

/-- Result record of `split_github_repo_url`. -/
structure RepoRef where
  owner : Str
  repo : Str
deriving DecidableEq, Repr

/-- Model of `split_github_repo_url` from the source: exactly two path segments. -/
def split_github_repo_url (repo_url : Str) : Except Str RepoRef :=
  if GITHUB_BASE_URL.isPrefixOf repo_url then
    let rest := repo_url.drop GITHUB_BASE_URL.length
    match splitOnChar '/' rest with
    | [owner, repo] => Except.ok ⟨owner, repo⟩
    | _ => Except.error (("Invalid GitHub repo URL: ").data ++ rest)
  else Except.error (("GitHub repo URL must start with https://github.com/").data)

/-- A checklist entry, the dict `{'text': …, 'is_checked': …}`. -/
structure Task where
  text : Str
  is_checked : Bool
deriving DecidableEq, Repr

/-- The unchecked checkbox marker `- [ ]`. -/
def markerUnchecked : Str := ("- [ ]").data

/-- The checked checkbox marker `- [x]`. -/
def markerChecked : Str := ("- [x]").data

/-- Loop body of `extract_tasks`: appends a task when the stripped line
starts with a checkbox marker; the task text is `line[5:].strip()` (note:
the raw line, not the stripped one) and the checked flag reads character 3
of the stripped line. -/
def extractStep (tasks : List Task) (line : Str) : List Task :=
  if markerUnchecked.isPrefixOf (pyStrip line) || markerChecked.isPrefixOf (pyStrip line) then
    tasks ++ [⟨pyStrip (line.drop 5), ((pyStrip line).getD 3 ' ' == 'x')⟩]
  else tasks

/-- Model of `extract_tasks` from the source: split the body on newlines and fold the
per-line loop body. -/
def extract_tasks (issue_body : Str) : List Task :=
  (splitOnChar '\n' issue_body).foldl extractStep []

/-- One serialized checklist line: newline, dash, brackets, space, text. -/
def taskLine (t : Task) : Str :=
  '\n' :: ("- ").data ++ (if t.is_checked then ("[x]").data else ("[ ]").data)
    ++ (" ").data ++ t.text

/-- Model of `create_tasklist_body` from the source: empty string for no tasks,
otherwise a fenced `[tasklist]` block with a `### Tasks` heading. -/
def create_tasklist_body (tasks : List Task) : Str :=
  if tasks.isEmpty then []
  else (("```[tasklist]\n### Tasks").data ++ (tasks.map taskLine).flatten)
    ++ ("\n```").data

/-- Three consecutive backticks, the fence delimiter. -/
def tripleTick : Str := [backtick, backtick, backtick]

/-- The literal `[tasklist]` tag of the pattern. -/
def tasklistTag : Str := ("[tasklist]").data

/-- Index of the first occurrence of three consecutive backticks. -/
def findTripleTick : Str → Option Nat
  | [] => none
  | c :: rest =>
    if tripleTick.isPrefixOf (c :: rest) then some 0
    else (findTripleTick rest).map (· + 1)

/-- Length of the match of ``` *\[tasklist\](.|\n)*?``` anchored at the head
of `s`, if any: literal fence, greedy run of spaces, literal `[tasklist]`,
lazy any-character middle, earliest closing fence. -/
def matchLenAt (s : Str) : Option Nat :=
  if tripleTick.isPrefixOf s then
    let r := s.drop 3
    let k := (r.takeWhile (fun c => c = ' ')).length
    let r2 := r.drop k
    if tasklistTag.isPrefixOf r2 then
      match findTripleTick (r2.drop tasklistTag.length) with
      | some i => some (3 + k + tasklistTag.length + i + 3)
      | none => none
    else none
  else none

/-- Decomposition of a body at the leftmost tasklist match: the text before
the match, the matched block, and the text after it. -/
def firstSplit : Str → Option (Str × Str × Str)
  | [] => none
  | c :: rest =>
    match matchLenAt (c :: rest) with
    | some n => some ([], (c :: rest).take n, (c :: rest).drop n)
    | none => (firstSplit rest).map (fun p => (c :: p.1, p.2.1, p.2.2))

/-! ## The re.sub replacement template

CPython parses a replacement string into literals and group references
before searching (`re._parser.parse_template`); a malformed escape raises
`re.error` even when the body has no match. The definitions below
transcribe `parse_template` for this call site: a pattern with exactly one
unnamed group (`state.groups = 1`, empty `state.groupindex`) and, as a
stated restriction, ASCII-only group names inside `\g<...>`. The tokenizer
reads one token ahead, so the `bad escape (end of pattern)` error of a
trailing lone backslash fires before the preceding token is processed. -/

/-- Replacement-template item: a literal character or a reference to group
0 (the whole match) or group 1. -/
inductive TItem where
  | lch : Char → TItem
  | group : Nat → TItem
deriving DecidableEq, Repr

/-- Octal digit test (`re._parser.OCTDIGITS`). -/
def isOctDigitCh (c : Char) : Bool := '0' ≤ c && c ≤ '7'

/-- Decimal digit test (`re._parser.DIGITS`). -/
def isDigitCh (c : Char) : Bool := '0' ≤ c && c ≤ '9'

/-- ASCII letter test (`re._parser.ASCIILETTERS`). -/
def isAsciiLetterCh (c : Char) : Bool := ('a' ≤ c && c ≤ 'z') || ('A' ≤ c && c ≤ 'Z')

/-- First character of an identifier (ASCII restriction of Python
`str.isidentifier`). -/
def isIdentStartCh (c : Char) : Bool := isAsciiLetterCh c || c = '_'

/-- Later character of an identifier (ASCII restriction). -/
def isIdentContCh (c : Char) : Bool := isIdentStartCh c || isDigitCh c

/-- Python `str.isidentifier`, restricted to ASCII names. -/
def isIdentifierStr : Str → Bool
  | [] => false
  | c :: rest => isIdentStartCh c && rest.all isIdentContCh

/-- Value of a decimal digit character. -/
def digitVal (c : Char) : Nat := c.toNat - 48

/-- Continuation of the digit grammar of Python `int()`: digits with single
underscores allowed only between digits. -/
def digitGroupsOk : Str → Bool
  | [] => true
  | '_' :: c :: rest => isDigitCh c && digitGroupsOk rest
  | c :: rest => isDigitCh c && digitGroupsOk rest

/-- Whether a string is a valid unsigned digit sequence for Python `int()`. -/
def pyIntDigits : Str → Bool
  | [] => false
  | c :: rest => isDigitCh c && digitGroupsOk rest

/-- Decimal value of a digit string with its underscores removed. -/
def digitsVal (l : Str) : Nat :=
  (l.filter (fun c => c != '_')).foldl (fun a c => a * 10 + digitVal c) 0

/-- Python `int(name)` on a string: optional surrounding whitespace,
optional sign, digits with underscore separators (ASCII digits only). -/
def pyIntOfStr (s : Str) : Option Int :=
  match pyStrip s with
  | '+' :: rest => if pyIntDigits rest then some (Int.ofNat (digitsVal rest)) else none
  | '-' :: rest => if pyIntDigits rest then some (-(Int.ofNat (digitsVal rest))) else none
  | rest => if pyIntDigits rest then some (Int.ofNat (digitsVal rest)) else none

/-- The apostrophe character, used by Python `repr` of a string. -/
def squote : Char := Char.ofNat 39

/-- The double-quote character. -/
def dquote : Char := Char.ofNat 34

/-- Hexadecimal digit character for `repr` escapes. -/
def hexDigitCh (n : Nat) : Char :=
  if n < 10 then Char.ofNat (48 + n) else Char.ofNat (87 + n)

/-- One character of Python `repr` of a string quoted with `q`. -/
def pyReprChar (q : Char) (c : Char) : Str :=
  if c = '\\' then ['\\', '\\']
  else if c = q then ['\\', q]
  else if c = '\n' then ['\\', 'n']
  else if c = '\r' then ['\\', 'r']
  else if c = '\t' then ['\\', 't']
  else if c.toNat < 32 || c.toNat = 127 then
    ['\\', 'x', hexDigitCh (c.toNat / 16), hexDigitCh (c.toNat % 16)]
  else [c]

/-- Python `repr` of a string (single quotes, double quotes when the text
holds an apostrophe but no double quote), as used by the `%r` of
`re` error messages. -/
def pyRepr (s : Str) : Str :=
  if s.contains squote && !(s.contains dquote) then
    dquote :: (s.map (pyReprChar dquote)).flatten ++ [dquote]
  else
    squote :: (s.map (pyReprChar squote)).flatten ++ [squote]

/-- Index of the last newline of a string, if any (Python `str.rfind`). -/
def rfindNewline (l : Str) : Option Nat :=
  (l.reverse.findIdx? (fun c => c == '\n')).map (fun j => l.length - 1 - j)

/-- Rendering of an `re.error` message for template `tpl` at position
`pos`: `re.error.__init__` appends ` at position N` and, when a newline
precedes the position, a ` (line L, column C)` suffix. -/
def reErrorMsg (tpl : Str) (msg : Str) (pos : Nat) : Str :=
  if (tpl.take pos).contains '\n' then
    msg ++ (" at position ").data ++ Nat.toDigits 10 pos ++ (" (line ").data
      ++ Nat.toDigits 10 ((tpl.take pos).count '\n' + 1) ++ (", column ").data
      ++ Nat.toDigits 10 (pos - (rfindNewline (tpl.take pos)).getD 0) ++ (")").data
  else msg ++ (" at position ").data ++ Nat.toDigits 10 pos

/-- The table `re._parser.ESCAPES` restricted to replacement templates:
the character escapes a backslash-pair maps to. -/
def replEscape (c : Char) : Option Char :=
  if c = 'a' then some (Char.ofNat 7)
  else if c = 'b' then some (Char.ofNat 8)
  else if c = 'f' then some (Char.ofNat 12)
  else if c = 'n' then some '\n'
  else if c = 'r' then some (Char.ofNat 13)
  else if c = 't' then some '\t'
  else if c = 'v' then some (Char.ofNat 11)
  else if c = '\\' then some '\\'
  else none

/-- Result of scanning a `\g<...>` group name for its `>` terminator with
the template tokenizer: name found (raw characters, remainder after the
terminator), end of string reached, or a trailing lone backslash hit. -/
inductive GtScan where
  | found : Str → Str → GtScan
  | unterminated : GtScan
  | badEscape : GtScan
deriving DecidableEq, Repr

/-- Scan to the `>` terminator of a group name. The tokenizer reads
backslash pairs as single two-character tokens, so a `>` preceded by a
backslash does not terminate the name. -/
def scanGt : Str → GtScan
  | [] => GtScan.unterminated
  | c :: rest =>
    if c = '>' then GtScan.found [] rest
    else if c = '\\' then
      match rest with
      | [] => GtScan.badEscape
      | d :: rest2 =>
        match scanGt rest2 with
        | GtScan.found nm r => GtScan.found ('\\' :: d :: nm) r
        | other => other
    else
      match scanGt rest with
      | GtScan.found nm r => GtScan.found (c :: nm) r
      | other => other

/-- Resolution of a `\g<...>` group name (`state.groups = 1`, empty
`state.groupindex`): identifiers are unknown names (`IndexError`),
non-negative integers at most 1 are group references, larger ones are
invalid references, everything else is a bad character in the name. -/
def resolveGroupName (tpl : Str) (nm : Str) (errPos : Nat) : Except Str TItem :=
  if isIdentifierStr nm then
    Except.error (("unknown group name ").data ++ pyRepr nm)
  else
    match pyIntOfStr nm with
    | some i =>
      if i < 0 then
        Except.error (reErrorMsg tpl (("bad character in group name ").data ++ pyRepr nm)
          errPos)
      else if 1 < i then
        Except.error (reErrorMsg tpl (("invalid group reference ").data
          ++ Nat.toDigits 10 i.toNat) errPos)
      else Except.ok (TItem.group i.toNat)
    | none =>
      Except.error (reErrorMsg tpl (("bad character in group name ").data ++ pyRepr nm)
        errPos)

/-- Transcription of `re._parser.parse_template` over the remainder of the
template, fuelled by its length (each step consumes at least one
character, so `tpl.length + 1` fuel always suffices and the fuel-0 branch
is unreachable). `tpl` is the whole template (for error positions), `pos`
the index of the next character. Before a token is processed the token
after it is tokenized (the tokenizer's one-token lookahead), so a
trailing lone backslash raises first. -/
def parseTemplateAux (tpl : Str) : Nat → Nat → Str → Except Str (List TItem)
  | 0, _, _ => Except.ok []
  | _ + 1, _, [] => Except.ok []
  | fuel + 1, pos, c :: rest =>
    if c = '\\' then
      match rest with
      | [] => Except.error (reErrorMsg tpl (("bad escape (end of pattern)").data)
          (tpl.length - 1))
      | d :: rest2 =>
        if rest2 = ['\\'] then
          Except.error (reErrorMsg tpl (("bad escape (end of pattern)").data)
            (tpl.length - 1))
        else if d = 'g' then
          match rest2 with
          | '<' :: rest3 =>
            if rest3 = [] then
              Except.error (reErrorMsg tpl (("missing group name").data) (pos + 3))
            else
              match scanGt rest3 with
              | GtScan.badEscape =>
                Except.error (reErrorMsg tpl (("bad escape (end of pattern)").data)
                  (tpl.length - 1))
              | GtScan.unterminated =>
                Except.error (reErrorMsg tpl (("missing >, unterminated name").data)
                  (pos + 3))
              | GtScan.found nm rest4 =>
                if rest4 = ['\\'] then
                  Except.error (reErrorMsg tpl (("bad escape (end of pattern)").data)
                    (tpl.length - 1))
                else if nm = [] then
                  Except.error (reErrorMsg tpl (("missing group name").data) (pos + 3))
                else
                  match resolveGroupName tpl nm (pos + 3) with
                  | Except.error e => Except.error e
                  | Except.ok it =>
                    (parseTemplateAux tpl fuel (pos + 4 + nm.length) rest4).map
                      (fun l => it :: l)
          | _ => Except.error (reErrorMsg tpl (("missing <").data) (pos + 2))
        else if d = '0' then
          match rest2 with
          | d1 :: rest3 =>
            if isOctDigitCh d1 then
              if rest3 = ['\\'] then
                Except.error (reErrorMsg tpl (("bad escape (end of pattern)").data)
                  (tpl.length - 1))
              else
                match rest3 with
                | d2 :: rest4 =>
                  if isOctDigitCh d2 then
                    if rest4 = ['\\'] then
                      Except.error (reErrorMsg tpl (("bad escape (end of pattern)").data)
                        (tpl.length - 1))
                    else
                      (parseTemplateAux tpl fuel (pos + 4) rest4).map
                        (fun l => TItem.lch (Char.ofNat (digitVal d1 * 8 + digitVal d2)) :: l)
                  else
                    (parseTemplateAux tpl fuel (pos + 3) rest3).map
                      (fun l => TItem.lch (Char.ofNat (digitVal d1)) :: l)
                | [] =>
                  (parseTemplateAux tpl fuel (pos + 3) rest3).map
                    (fun l => TItem.lch (Char.ofNat (digitVal d1)) :: l)
            else
              (parseTemplateAux tpl fuel (pos + 2) rest2).map
                (fun l => TItem.lch (Char.ofNat 0) :: l)
          | [] =>
            (parseTemplateAux tpl fuel (pos + 2) rest2).map
              (fun l => TItem.lch (Char.ofNat 0) :: l)
        else if isDigitCh d then
          match rest2 with
          | d1 :: rest3 =>
            if isDigitCh d1 then
              if rest3 = ['\\'] then
                Except.error (reErrorMsg tpl (("bad escape (end of pattern)").data)
                  (tpl.length - 1))
              else
                match rest3 with
                | d2 :: rest4 =>
                  if isOctDigitCh d && isOctDigitCh d1 && isOctDigitCh d2 then
                    if rest4 = ['\\'] then
                      Except.error (reErrorMsg tpl (("bad escape (end of pattern)").data)
                        (tpl.length - 1))
                    else if digitVal d * 64 + digitVal d1 * 8 + digitVal d2 > 255 then
                      Except.error (reErrorMsg tpl (("octal escape value \\").data
                        ++ [d, d1, d2] ++ (" outside of range 0-0o377").data) pos)
                    else
                      (parseTemplateAux tpl fuel (pos + 4) rest4).map
                        (fun l => TItem.lch (Char.ofNat
                          (digitVal d * 64 + digitVal d1 * 8 + digitVal d2)) :: l)
                  else
                    Except.error (reErrorMsg tpl (("invalid group reference ").data
                      ++ Nat.toDigits 10 (digitVal d * 10 + digitVal d1)) (pos + 1))
                | [] =>
                  Except.error (reErrorMsg tpl (("invalid group reference ").data
                    ++ Nat.toDigits 10 (digitVal d * 10 + digitVal d1)) (pos + 1))
            else if d = '1' then
              (parseTemplateAux tpl fuel (pos + 2) rest2).map (fun l => TItem.group 1 :: l)
            else
              Except.error (reErrorMsg tpl (("invalid group reference ").data ++ [d])
                (pos + 1))
          | [] =>
            if d = '1' then
              (parseTemplateAux tpl fuel (pos + 2) rest2).map (fun l => TItem.group 1 :: l)
            else
              Except.error (reErrorMsg tpl (("invalid group reference ").data ++ [d])
                (pos + 1))
        else
          match replEscape d with
          | some e =>
            (parseTemplateAux tpl fuel (pos + 2) rest2).map (fun l => TItem.lch e :: l)
          | none =>
            if isAsciiLetterCh d then
              Except.error (reErrorMsg tpl (("bad escape \\").data ++ [d]) pos)
            else
              (parseTemplateAux tpl fuel (pos + 2) rest2).map
                (fun l => TItem.lch '\\' :: TItem.lch d :: l)
    else
      if rest = ['\\'] then
        Except.error (reErrorMsg tpl (("bad escape (end of pattern)").data)
          (tpl.length - 1))
      else
        (parseTemplateAux tpl fuel (pos + 1) rest).map (fun l => TItem.lch c :: l)

/-- Parse of a whole replacement template (`re._parser.parse_template` at
`state.groups = 1`). -/
def parseTemplate (tpl : Str) : Except Str (List TItem) :=
  parseTemplateAux tpl (tpl.length + 1) 0 tpl

/-- Expansion of one template item at a match
(`re._parser.expand_template`): literals are kept, group 0 yields the
whole match, group 1 its final captured character, the empty string when
the group is unmatched. -/
def expandTItem (whole : Str) (g1 : Option Str) : TItem → Str
  | TItem.lch c => [c]
  | TItem.group 0 => whole
  | TItem.group (_ + 1) => g1.getD []

/-- Expansion of a parsed template at a match. -/
def expandTemplate (whole : Str) (g1 : Option Str) (items : List TItem) : Str :=
  (items.map (expandTItem whole g1)).flatten

/-- Final value of capture group 1 `(.|\n)` over a match `m` of the
pattern: the group captures one character per lazy repetition, so its
final value is the last character of the middle; with an empty middle the
group never participated in the match. -/
def group1OfMatch (m : Str) : Option Str :=
  ((m.take (m.length - 3)).drop
      (3 + ((m.drop 3).takeWhile (fun c => c = ' ')).length
        + tasklistTag.length)).getLast?.map (fun c => [c])

/-- Model of `replace_tasklist_in_issue_body` from the source:
`re.sub(pattern, replacement_tasklist, issue_body, 1)`. The replacement
template is parsed up front (CPython compiles it before searching, so a
malformed escape raises even when the body has no match); the leftmost
match, if any, is then substituted by the expanded template. -/
def replace_tasklist_in_issue_body (issue_body : Str) (replacement_tasklist : Str) :
    Except Str Str :=
  match parseTemplate replacement_tasklist with
  | Except.error e => Except.error e
  | Except.ok items =>
    match firstSplit issue_body with
    | none => Except.ok issue_body
    | some (p, m, q) =>
      Except.ok (p ++ expandTemplate m (group1OfMatch m) items ++ q)

/-- Number of (disjoint, leftmost) tasklist-pattern matches, fuelled by the
input length (every match consumes at least one character). -/
def countBlocksFuel : Nat → Str → Nat
  | 0, _ => 0
  | _ + 1, [] => 0
  | fuel + 1, c :: rest =>
    match matchLenAt (c :: rest) with
    | some n => 1 + countBlocksFuel fuel ((c :: rest).drop n)
    | none => countBlocksFuel fuel rest

/-- Number of fenced `[tasklist]` blocks in a body. -/
def countBlocks (s : Str) : Nat := countBlocksFuel s.length s

/-- The tasks of the first fenced `[tasklist]` block of a body (the empty
task list when no block is present). -/
def tasksOfFirstBlock (body : Str) : List Task :=
  match firstSplit body with
  | some p => extract_tasks p.2.1
  | none => []

/-! ## The GitHub client and the orchestrator

Network calls go through a `World` oracle; every outgoing request is
appended to a log. Python exceptions are `Except.error` values carrying the
message. `requests.patch`/GraphQL responses are plain data (HTTP errors do
not raise in `requests`). -/

/-- The JSON of a fetched issue, restricted to the fields the program
reads; `none` covers both an absent key (Python `KeyError`) and a `null`
value (the subsequent `AttributeError` on use). -/
structure IssueJson where
  body : Option Str
  html_url : Option Str
  node_id : Option Str
  title : Option Str
  state : Option Str
deriving DecidableEq, Repr

/-- The response of the issue-creation POST, restricted to the fields the
program reads (modelled as present). -/
structure CreateResp where
  status : Nat
  html_url : Str
  number : Str
  content : Str
deriving DecidableEq, Repr

/-- The network oracle: what the remote service answers to each request. -/
structure World where
  fetchIssue : Str → Str → Str → Except Str IssueJson
  postCreate : Str → Str → Str → Str → Except Str CreateResp
  patchState : Str → Str → Str → Nat
  postGraphql : Str → Str → Except Str (List Str)
  patchBody : Str → Str → Str → Str → Nat

/-- An outgoing request, as recorded in the run log. -/
inductive Req where
  | fetchIssue (owner repo num : Str)
  | createIssue (owner repo title body : Str)
  | patchState (owner repo num : Str)
  | link (parentId childId : Str)
  | patchBody (owner repo num : Str) (body : Str)
deriving DecidableEq, Repr

/-- Model of `fetch_issue_details`: one GET, raw decoded response. -/
def fetch_issue_details (w : World) (owner repo issue_number : Str) :
    List Req × Except Str IssueJson :=
  ([Req.fetchIssue owner repo issue_number], w.fetchIssue owner repo issue_number)

/-- Model of `fetch_issue_details_by_url`: parse the URL then delegate. -/
def fetch_issue_details_by_url (w : World) (issue_url : Str) :
    List Req × Except Str IssueJson :=
  match split_github_issue_url issue_url with
  | Except.error e => ([], Except.error e)
  | Except.ok p => fetch_issue_details w p.owner p.repo p.issue_id

/-- Model of `fetch_issue_node_id`: fetch the details, read `node_id`. -/
def fetch_issue_node_id (w : World) (issue_url : Str) : List Req × Except Str Str :=
  match split_github_issue_url issue_url with
  | Except.error e => ([], Except.error e)
  | Except.ok p =>
    match fetch_issue_details w p.owner p.repo p.issue_id with
    | (log, Except.error e) => (log, Except.error e)
    | (log, Except.ok d) =>
      match d.node_id with
      | some n => (log, Except.ok n)
      | none => (log, Except.error (("node_id").data))

/-- Model of `create_issue`: POST; on a 201 response, when `state == 'closed'`, a
follow-up state PATCH is issued whose response is discarded; the new
issue's `html_url` is returned. A non-201 create response raises. -/
def create_issue (w : World) (owner repo title description state : Str) :
    List Req × Except Str Str :=
  match w.postCreate owner repo title description with
  | Except.error e => ([Req.createIssue owner repo title description], Except.error e)
  | Except.ok resp =>
    if resp.status = 201 then
      if state = ("closed").data then
        ([Req.createIssue owner repo title description,
          Req.patchState owner repo resp.number], Except.ok resp.html_url)
      else ([Req.createIssue owner repo title description], Except.ok resp.html_url)
    else
      ([Req.createIssue owner repo title description],
        Except.error ((("issue POST failed, can't create issue in https://api.github.com/repos/").data
          ++ owner ++ ['/'] ++ repo ++ ("/issues, ").data
          ++ (toString resp.status).data ++ (", ").data ++ resp.content)))

/-- Python interpolates `None` as the string `"None"` in f-strings; the
reference owner/repo reach `create_issue` through such interpolation. -/
def orNoneStr (o : Option Str) : Str :=
  match o with
  | some s => s
  | none => ("None").data

/-- Model of `create_reference_issue`: fetch the referenced issue, require `title`
and `state`, build the prefixed title and the back-link body, create the
new issue in the reference repo with the referenced issue's state. -/
def create_reference_issue (w : World) (reference_repo_owner reference_repo : Option Str)
    (issue_url : Str) : List Req × Except Str Str :=
  match fetch_issue_details_by_url w issue_url with
  | (log, Except.error e) => (log, Except.error e)
  | (log, Except.ok details) =>
    match details.title with
    | none => (log, Except.error (("title field not present").data))
    | some title =>
      match details.state with
      | none => (log, Except.error (("state field not present").data))
      | some st =>
        match split_github_issue_url issue_url with
        | Except.error e => (log, Except.error e)
        | Except.ok parts =>
          (log ++ (create_issue w (orNoneStr reference_repo_owner) (orNoneStr reference_repo)
              (parts.owner ++ ['/'] ++ parts.repo ++ ['#'] ++ parts.issue_id ++ [':'] ++ title)
              (("This issue is a reference/placeholder to: [").data
                ++ (parts.owner ++ ['/'] ++ parts.repo ++ ['#'] ++ parts.issue_id ++ [':'] ++ title)
                ++ ("](").data ++ issue_url ++ (")").data)
              st).1,
            (create_issue w (orNoneStr reference_repo_owner) (orNoneStr reference_repo)
              (parts.owner ++ ['/'] ++ parts.repo ++ ['#'] ++ parts.issue_id ++ [':'] ++ title)
              (("This issue is a reference/placeholder to: [").data
                ++ (parts.owner ++ ['/'] ++ parts.repo ++ ['#'] ++ parts.issue_id ++ [':'] ++ title)
                ++ ("](").data ++ issue_url ++ (")").data)
              st).2)

/-- Model of `link_parent_issue_and_sub_issue`: one GraphQL mutation; a non-empty
`errors` array raises with the messages joined by `" | "`. -/
def link_parent_issue_and_sub_issue (w : World) (parent_issue_id child_issue_id : Str) :
    List Req × Except Str Bool :=
  match w.postGraphql parent_issue_id child_issue_id with
  | Except.error e => ([Req.link parent_issue_id child_issue_id], Except.error e)
  | Except.ok errs =>
    if errs.length > 0 then
      ([Req.link parent_issue_id child_issue_id],
        Except.error ((("Unable to link sub-issue:").data
          ++ (errs.intersperse ((" | ").data)).flatten)))
    else ([Req.link parent_issue_id child_issue_id], Except.ok true)

/-- Everything `create_sub_issues` needs about the resolved parent issue. -/
structure ParentInfo where
  owner : Str
  repo : Str
  num : Str
  body : Str
  nodeId : Str
deriving DecidableEq, Repr

/-- Step 1 of `create_sub_issues` (the first `try` block): parse the parent
URL, fetch its details, read its body, re-fetch by `html_url` for the node
id. Any failure aborts the run. -/
def resolveParent (w : World) (parent_issue_url : Str) : List Req × Except Str ParentInfo :=
  match split_github_issue_url parent_issue_url with
  | Except.error e => ([], Except.error e)
  | Except.ok pi =>
    match fetch_issue_details w pi.owner pi.repo pi.issue_id with
    | (log, Except.error e) => (log, Except.error e)
    | (log, Except.ok d) =>
      match d.body with
      | none => (log, Except.error (("body").data))
      | some parent_body =>
        match d.html_url with
        | none => (log, Except.error (("html_url").data))
        | some hurl =>
          match fetch_issue_node_id w hurl with
          | (log2, Except.error e) => (log ++ log2, Except.error e)
          | (log2, Except.ok nid) =>
            (log ++ log2, Except.ok ⟨pi.owner, pi.repo, pi.issue_id, parent_body, nid⟩)

/-- The classification state: the three buckets and the error counter. -/
structure Buckets where
  same_owner_urls : List Str
  different_owner_urls : List Str
  non_issue_tasks : List Task
  error_count : Nat
deriving DecidableEq, Repr

/-- Loop body of the classification loop of `create_sub_issues`. -/
def classifyStep (parent_owner : Str) (b : Buckets) (task : Task) : Buckets :=
  if is_github_issue_url task.text then
    match split_github_issue_url task.text with
    | Except.ok sub =>
      if parent_owner = sub.owner then
        { b with same_owner_urls := b.same_owner_urls ++ [task.text] }
      else
        { b with different_owner_urls := b.different_owner_urls ++ [task.text] }
    | Except.error _ => { b with error_count := b.error_count + 1 }
  else { b with non_issue_tasks := b.non_issue_tasks ++ [task] }

/-- The classification loop of `create_sub_issues`. -/
def classifyTasks (parent_owner : Str) (tasks : List Task) : Buckets :=
  tasks.foldl (classifyStep parent_owner) ⟨[], [], [], 0⟩

/-- The reference-creation loop: on success the new URL is collected (the
source appends it to `same_owner_urls`), on failure the error counter
grows and the loop continues. Returns (log, new urls, errors). -/
def createRefs (w : World) (ro rr : Option Str) : List Str → List Req × List Str × Nat
  | [] => ([], [], 0)
  | u :: rest =>
    match create_reference_issue w ro rr u with
    | (clog, Except.ok ref) =>
      match createRefs w ro rr rest with
      | (tlog, refs, errs) => (clog ++ tlog, ref :: refs, errs)
    | (clog, Except.error _) =>
      match createRefs w ro rr rest with
      | (tlog, refs, errs) => (clog ++ tlog, refs, errs + 1)

/-- The linking loop: resolve each URL's node id, issue the mutation; any
failure increments the error counter and the loop continues. -/
def linkAll (w : World) (parent_issue_id : Str) : List Str → List Req × Nat
  | [] => ([], 0)
  | u :: rest =>
    match fetch_issue_node_id w u with
    | (log, Except.error _) =>
      match linkAll w parent_issue_id rest with
      | (tlog, errs) => (log ++ tlog, errs + 1)
    | (log, Except.ok sub_issue_id) =>
      match link_parent_issue_and_sub_issue w parent_issue_id sub_issue_id with
      | (llog, Except.error _) =>
        match linkAll w parent_issue_id rest with
        | (tlog, errs) => (log ++ llog ++ tlog, errs + 1)
      | (llog, Except.ok _) =>
        match linkAll w parent_issue_id rest with
        | (tlog, errs) => (log ++ llog ++ tlog, errs)

/-- How a run of `create_sub_issues` ends (what it prints last). -/
inductive Outcome where
  | parentFailed
  | refRepoMissing
  | errorsFound
  | replaceFailed
  | patchFailed
  | tasklistUpdated
  | tasklistRemoved
  | nothingChanged
deriving DecidableEq, Repr

/-- The observable result of a run: requests made, exit status, final value
of the error counter, and the reported outcome. -/
structure RunOut where
  log : List Req
  exitCode : Nat
  errors : Nat
  outcome : Outcome
deriving DecidableEq, Repr

/-- The final step of `create_sub_issues`: with a positive error counter the
run exits 1 untouched; otherwise, when any URL is in the same-owner list,
the tasklist replacement is computed (re-serialized non-issue tasks if any
remain and no errors occurred, the empty string otherwise) and the parent
body is PATCHed with it — unless `re.sub` raises on the replacement
template, in which case the bare `except` of line 399 swallows the error
and the function returns with no PATCH and exit status 0 (`exit(0)` at
line 398 is a `SystemExit`, which that handler does not catch on the
normal path); with nothing to link the run reports that nothing changed. -/
def finalize (w : World) (p : ParentInfo) (same_owner_urls : List Str)
    (non_issue_tasks : List Task) (error_count : Nat) : List Req × Nat × Outcome :=
  if error_count > 0 then ([], 1, Outcome.errorsFound)
  else if same_owner_urls.length > 0 then
    match replace_tasklist_in_issue_body p.body
        (if error_count = 0 ∧ non_issue_tasks.length > 0
          then create_tasklist_body non_issue_tasks else []) with
    | Except.error _ => ([], 0, Outcome.replaceFailed)
    | Except.ok new_body =>
      ([Req.patchBody p.owner p.repo p.num new_body], 0,
        if w.patchBody p.owner p.repo p.num new_body ≠ 200
        then Outcome.patchFailed
        else if error_count = 0 ∧ non_issue_tasks.length > 0
          then Outcome.tasklistUpdated else Outcome.tasklistRemoved)
  else ([], 0, Outcome.nothingChanged)

/-- Model of `Tasks2Subissues.create_sub_issues`, end to end: resolve the parent,
classify the extracted tasks, check the reference-repo precondition,
materialize reference issues, link sub-issues, finalize the parent body. -/
def create_sub_issues (w : World) (parent_issue_url : Str)
    (reference_repo_owner reference_repo : Option Str) : RunOut :=
  match resolveParent w parent_issue_url with
  | (log, Except.error _) => ⟨log, 1, 0, Outcome.parentFailed⟩
  | (log, Except.ok p) =>
    if (classifyTasks p.owner (extract_tasks p.body)).different_owner_urls.length > 0 ∧
        (reference_repo = none ∨ reference_repo_owner = none) then
      ⟨log, 1, (classifyTasks p.owner (extract_tasks p.body)).error_count,
        Outcome.refRepoMissing⟩
    else
      match createRefs w reference_repo_owner reference_repo
          (classifyTasks p.owner (extract_tasks p.body)).different_owner_urls with
      | (rlog, refs, rerrs) =>
        match linkAll w p.nodeId
            ((classifyTasks p.owner (extract_tasks p.body)).same_owner_urls ++ refs) with
        | (llog, lerrs) =>
          match finalize w p
              ((classifyTasks p.owner (extract_tasks p.body)).same_owner_urls ++ refs)
              (classifyTasks p.owner (extract_tasks p.body)).non_issue_tasks
              ((classifyTasks p.owner (extract_tasks p.body)).error_count + rerrs + lerrs) with
          | (flog, exitc, out) =>
            ⟨log ++ rlog ++ llog ++ flog, exitc,
              (classifyTasks p.owner (extract_tasks p.body)).error_count + rerrs + lerrs, out⟩

/-- Whether the log contains a parent-body PATCH. -/
def hasPatchBody (l : List Req) : Bool :=
  l.any (fun r => match r with | Req.patchBody _ _ _ _ => true | _ => false)

/-- Whether the log contains an issue-creation POST. -/
def hasCreateReq (l : List Req) : Bool :=
  l.any (fun r => match r with | Req.createIssue _ _ _ _ => true | _ => false)

/-- Whether the log contains a sub-issue link mutation. -/
def hasLinkReq (l : List Req) : Bool :=
  l.any (fun r => match r with | Req.link _ _ => true | _ => false)

/-! ## Spec-side definitions

These follow the specification's words and are compared against the
definitions above, which follow the source. -/

/-- Per-line task recognition as the source computes it: a line qualifies
when its stripped form starts with a checkbox marker; the text is the
remainder of the raw line after its first five characters, stripped. -/
def taskOfLine (line : Str) : Option Task :=
  if markerUnchecked.isPrefixOf (pyStrip line) || markerChecked.isPrefixOf (pyStrip line) then
    some ⟨pyStrip (line.drop 5), ((pyStrip line).getD 3 ' ' == 'x')⟩
  else none

/-- Per-line task recognition as the specification words it: the text is
the remainder of the line after the checkbox marker (that is, after the
first five characters of the *stripped* line), trimmed. -/
def taskOfLineSpec (line : Str) : Option Task :=
  if markerUnchecked.isPrefixOf (pyStrip line) || markerChecked.isPrefixOf (pyStrip line) then
    some ⟨pyStrip ((pyStrip line).drop 5), ((pyStrip line).getD 3 ' ' == 'x')⟩
  else none

/-- Function `extract_tasks` as the specification words it. -/
def extractTasksSpec (body : Str) : List Task :=
  (splitOnChar '\n' body).filterMap taskOfLineSpec

/-- Lines joined with each line terminated by a newline. -/
def lineTerm : List Str → Str
  | [] => []
  | l :: ls => l ++ '\n' :: lineTerm ls

/-- Lines joined with each line preceded by a newline. -/
def postText : List Str → Str
  | [] => []
  | l :: ls => '\n' :: (l ++ postText ls)

/-- The opening fence line of a tasklist block: three backticks, `k`
spaces, the `[tasklist]` tag. -/
def openLine (k : Nat) : Str := tripleTick ++ List.replicate k ' ' ++ tasklistTag

/-- A fenced tasklist block: opening fence line, interior lines, closing
fence. -/
def blockText (k : Nat) (innerLines : List Str) : Str :=
  openLine k ++ '\n' :: (lineTerm innerLines ++ tripleTick)

/-- A body made of prefix lines, one fenced tasklist block, and suffix
lines. -/
def bodyOfParts (preLines : List Str) (k : Nat) (innerLines postLines : List Str) : Str :=
  lineTerm preLines ++ blockText k innerLines ++ postText postLines

/-! ## Concrete inputs used by counterexamples and witnesses -/

/-- A checkbox line indented by one space. -/
def c3Line : Str := (" - [ ] foo").data

/-- A body with exactly one tasklist block but a checkbox line outside it. -/
def c5Body : Str := ("- [ ] out\n```[tasklist]\n- [ ] in\n```").data

/-- A body that is exactly one tasklist block with middle `"\nx\n"`. -/
def c4Body : Str := ("```[tasklist]\nx\n```").data

/-- The replacement string `\1`: a backreference to capture group 1. -/
def c4ReplRef : Str := ("\\1").data

/-- The replacement string `\d`: a malformed template escape. -/
def c4ReplBad : Str := ("\\d").data

/-- The spec's classification example: two issue URLs under different
owners and one free-text task, for a parent owned by `orgA`. -/
def exTasksC6 : List Task :=
  [⟨("https://github.com/orgA/r/issues/1").data, false⟩,
    ⟨("https://github.com/orgB/r/issues/2").data, false⟩,
    ⟨("buy milk").data, false⟩]

/-- A serialized checklist line without its leading newline
(`taskLine t = '\n' :: serLine t`). -/
def serLine (t : Task) : Str :=
  ("- ").data ++ (if t.is_checked then ("[x]").data else ("[ ]").data)
    ++ (" ").data ++ t.text

/-- Parent body used by the error-run witness. -/
def w1Body : Str := ("```[tasklist]\n- [ ] https://github.com/a/b/issues/2\n```").data

/-- A world whose parent issue resolves but whose sub-issue fetch fails,
producing one linking error. -/
def w1 : World where
  fetchIssue := fun _ _ n =>
    if n = ("1").data then
      Except.ok ⟨some w1Body, some (("https://github.com/a/b/issues/1").data),
        some (("P").data), none, none⟩
    else Except.error (("404").data)
  postCreate := fun _ _ _ _ => Except.error (("no").data)
  patchState := fun _ _ _ => 200
  postGraphql := fun _ _ => Except.ok []
  patchBody := fun _ _ _ _ => 200

/-- Parent body of the spec's end-to-end example. -/
def w2Body : Str :=
  ("Intro\n```[tasklist]\n### Tasks\n- [ ] https://github.com/orgA/r/issues/5\n- [ ] write docs\n```\nOutro").data

/-- A world realizing the spec's end-to-end example: parent `orgA/r/9`,
sub-issue 5 resolves to node `S`, all calls succeed. -/
def w2 : World where
  fetchIssue := fun _ _ n =>
    if n = ("9").data then
      Except.ok ⟨some w2Body, some (("https://github.com/orgA/r/issues/9").data),
        some (("P").data), none, none⟩
    else if n = ("5").data then
      Except.ok ⟨some [], some (("https://github.com/orgA/r/issues/5").data),
        some (("S").data), none, none⟩
    else Except.error (("404").data)
  postCreate := fun _ _ _ _ => Except.error (("no").data)
  patchState := fun _ _ _ => 200
  postGraphql := fun _ _ => Except.ok []
  patchBody := fun _ _ _ _ => 200

/-- Parent body like `w2Body` but whose free-text task is `\d`, so the
re-serialized checklist is a malformed replacement template. -/
def w4Body : Str :=
  ("Intro\n```[tasklist]\n- [ ] https://github.com/orgA/r/issues/5\n- [ ] \\d\n```\nOutro").data

/-- A world identical to `w2` except for the parent body: every call
succeeds, but the remaining non-issue task text is `\d`. -/
def w4 : World where
  fetchIssue := fun _ _ n =>
    if n = ("9").data then
      Except.ok ⟨some w4Body, some (("https://github.com/orgA/r/issues/9").data),
        some (("P").data), none, none⟩
    else if n = ("5").data then
      Except.ok ⟨some [], some (("https://github.com/orgA/r/issues/5").data),
        some (("S").data), none, none⟩
    else Except.error (("404").data)
  postCreate := fun _ _ _ _ => Except.error (("no").data)
  patchState := fun _ _ _ => 200
  postGraphql := fun _ _ => Except.ok []
  patchBody := fun _ _ _ _ => 200

/-- Parent body with a cross-owner task, for the missing-refrepo witness. -/
def w3Body : Str := ("```[tasklist]\n- [ ] https://github.com/orgB/r/issues/3\n```").data

/-- A world whose parent issue contains a cross-owner task. -/
def w3 : World where
  fetchIssue := fun _ _ n =>
    if n = ("9").data then
      Except.ok ⟨some w3Body, some (("https://github.com/orgA/r/issues/9").data),
        some (("P").data), none, none⟩
    else Except.error (("404").data)
  postCreate := fun _ _ _ _ => Except.error (("no").data)
  patchState := fun _ _ _ => 200
  postGraphql := fun _ _ => Except.ok []
  patchBody := fun _ _ _ _ => 200

/-- A world whose issue-creation POST succeeds with status 201 but whose
follow-up state PATCH fails with status 500. -/
def w10 : World where
  fetchIssue := fun _ _ _ =>
    Except.ok ⟨none, none, none, some (("T").data), some (("closed").data)⟩
  postCreate := fun _ _ _ _ =>
    Except.ok ⟨201, ("https://github.com/x/y/issues/8").data, ("8").data, []⟩
  patchState := fun _ _ _ => 500
  postGraphql := fun _ _ => Except.ok []
  patchBody := fun _ _ _ _ => 200

/-! ## Lemmas about stripping -/

theorem lstrip_cons_of_not_space (c : Char) (t : Str) (h : isPySpace c = false) :
    lstrip (c :: t) = c :: t := by
  simp [lstrip, List.dropWhile_cons, h]

theorem rstrip_append_singleton (a : Str) (d : Char) (h : isPySpace d = false) :
    rstrip (a ++ [d]) = a ++ [d] := by
  simp [rstrip, List.dropWhile_cons, h]

theorem lstrip_head_not_space (l : Str) :
    lstrip l = [] ∨ ∃ c t, lstrip l = c :: t ∧ isPySpace c = false := by
  induction l with
  | nil => exact Or.inl rfl
  | cons c t ih =>
    cases h : isPySpace c with
    | true => simpa [lstrip, List.dropWhile_cons, h] using ih
    | false => exact Or.inr ⟨c, t, by simp [lstrip, List.dropWhile_cons, h], h⟩

theorem rstrip_last_not_space (l : Str) :
    rstrip l = [] ∨ ∃ a d, rstrip l = a ++ [d] ∧ isPySpace d = false := by
  rcases lstrip_head_not_space l.reverse with h | ⟨c, t, h1, h2⟩
  · left
    simp only [rstrip]
    simp only [lstrip] at h
    simp [h]
  · right
    refine ⟨t.reverse, c, ?_, h2⟩
    simp only [rstrip]
    simp only [lstrip] at h1
    simp [h1]

theorem rstrip_prefix (l : Str) : ∃ s, l = rstrip l ++ s := by
  have h := List.dropWhile_suffix (l := l.reverse) (p := isPySpace)
  rcases h with ⟨s, hs⟩
  refine ⟨s.reverse, ?_⟩
  have := congrArg List.reverse hs
  simpa [rstrip] using this.symm

theorem pyStrip_no_trim (l : Str)
    (h1 : ∃ c t, l = c :: t ∧ isPySpace c = false)
    (h2 : ∃ a d, l = a ++ [d] ∧ isPySpace d = false) : pyStrip l = l := by
  obtain ⟨c, t, rfl, hc⟩ := h1
  obtain ⟨a, d, heq, hd⟩ := h2
  unfold pyStrip
  rw [lstrip_cons_of_not_space c t hc, heq, rstrip_append_singleton a d hd]

theorem pyStrip_idem (l : Str) : pyStrip (pyStrip l) = pyStrip l := by
  cases hl : pyStrip l with
  | nil => simp [pyStrip, lstrip, rstrip]
  | cons c u =>
    apply pyStrip_no_trim
    · refine ⟨c, u, rfl, ?_⟩
      unfold pyStrip at hl
      rcases lstrip_head_not_space l with h | ⟨c2, t2, h1, h2⟩
      · rw [h] at hl; simp [rstrip] at hl
      · rw [h1] at hl
        rcases rstrip_prefix (c2 :: t2) with ⟨s, hs⟩
        rw [hl] at hs
        have hcc : c2 = c := by
          have := congrArg (fun x => x.headD ' ') hs
          simpa using this
        rw [← hcc]
        exact h2
    · rw [← hl]
      rcases rstrip_last_not_space (lstrip l) with h | ⟨a, d, h1, h2⟩
      · rw [show pyStrip l = rstrip (lstrip l) from rfl, h] at hl; simp at hl
      · exact ⟨a, d, h1, h2⟩

theorem mem_of_mem_lstrip {c : Char} {l : Str} (h : c ∈ lstrip l) : c ∈ l :=
  (List.dropWhile_sublist (p := isPySpace) (l := l)).subset h

theorem mem_of_mem_rstrip {c : Char} {l : Str} (h : c ∈ rstrip l) : c ∈ l := by
  have h2 : c ∈ l.reverse.dropWhile isPySpace := by simpa [rstrip] using h
  have h3 : c ∈ l.reverse := (List.dropWhile_sublist (p := isPySpace)).subset h2
  simpa using h3

theorem mem_of_mem_pyStrip {c : Char} {l : Str} (h : c ∈ pyStrip l) : c ∈ l :=
  mem_of_mem_lstrip (mem_of_mem_rstrip h)

/-! ## Lemmas about splitting -/

theorem splitOnChar_ne_nil (sep : Char) (l : Str) : splitOnChar sep l ≠ [] := by
  cases l with
  | nil => simp [splitOnChar]
  | cons c t =>
    simp only [splitOnChar]
    by_cases h : c = sep
    · simp [h]
    · simp only [if_neg h]
      cases hs : splitOnChar sep t <;> simp

theorem splitOnChar_not_mem (sep : Char) (l : Str) (h : sep ∉ l) :
    splitOnChar sep l = [l] := by
  induction l with
  | nil => rfl
  | cons c t ih =>
    have hc : ¬ c = sep := by rintro rfl; exact h (List.mem_cons_self c t)
    have ht : sep ∉ t := fun m => h (List.mem_cons_of_mem _ m)
    simp [splitOnChar, hc, ih ht]

theorem splitOnChar_append_cons (sep : Char) (a b : Str) (h : sep ∉ a) :
    splitOnChar sep (a ++ sep :: b) = a :: splitOnChar sep b := by
  induction a with
  | nil => simp [splitOnChar]
  | cons c t ih =>
    have hc : ¬ c = sep := by rintro rfl; exact h (List.mem_cons_self c t)
    have ht : sep ∉ t := fun m => h (List.mem_cons_of_mem _ m)
    simp only [List.cons_append, splitOnChar, if_neg hc, List.append_eq, ih ht]

theorem splitOnChar_lineTerm (L : List Str) (t : Str) (h : ∀ l ∈ L, '\n' ∉ l) :
    splitOnChar '\n' (lineTerm L ++ t) = L ++ splitOnChar '\n' t := by
  induction L with
  | nil => simp [lineTerm]
  | cons l ls ih =>
    have h1 : '\n' ∉ l := h l (List.mem_cons_self l ls)
    have h2 : ∀ x ∈ ls, '\n' ∉ x := fun x hx => h x (List.mem_cons_of_mem _ hx)
    have : lineTerm (l :: ls) ++ t = l ++ '\n' :: (lineTerm ls ++ t) := by
      simp [lineTerm]
    rw [this, splitOnChar_append_cons _ _ _ h1, ih h2]
    simp

theorem splitOnChar_head_postText (a : Str) (P : List Str) (ha : '\n' ∉ a)
    (h : ∀ l ∈ P, '\n' ∉ l) : splitOnChar '\n' (a ++ postText P) = a :: P := by
  induction P generalizing a with
  | nil =>
    simpa [postText] using splitOnChar_not_mem '\n' a ha
  | cons p ps ih =>
    have h1 : '\n' ∉ p := h p (List.mem_cons_self p ps)
    have h2 : ∀ x ∈ ps, '\n' ∉ x := fun x hx => h x (List.mem_cons_of_mem _ hx)
    have : a ++ postText (p :: ps) = a ++ '\n' :: (p ++ postText ps) := by
      simp [postText]
    rw [this, splitOnChar_append_cons _ _ _ ha, ih p h1 h2]

/-! ## Extraction as a per-line filter -/

theorem extractStep_eq (tasks : List Task) (line : Str) :
    extractStep tasks line = tasks ++ (taskOfLine line).toList := by
  cases h : (markerUnchecked.isPrefixOf (pyStrip line) || markerChecked.isPrefixOf (pyStrip line)) <;>
    simp [extractStep, taskOfLine, h]

theorem extract_foldl (lines : List Str) :
    ∀ acc, lines.foldl extractStep acc = acc ++ lines.filterMap taskOfLine := by
  induction lines with
  | nil => intro acc; simp
  | cons l ls ih =>
    intro acc
    rw [List.foldl_cons, extractStep_eq, ih]
    cases h : taskOfLine l <;> simp [List.filterMap_cons, h]

theorem extract_tasks_eq (body : Str) :
    extract_tasks body = (splitOnChar '\n' body).filterMap taskOfLine := by
  unfold extract_tasks
  rw [extract_foldl]
  simp

/-! ## Lemmas about the tasklist matcher -/

theorem isPrefixOf_append_self (a b : Str) : a.isPrefixOf (a ++ b) = true := by
  rw [List.isPrefixOf_iff_prefix]
  exact List.prefix_append a b

theorem isPrefixOf_head_ne (a t : Str) (c d : Char) (h : ¬ c = d) :
    (c :: a).isPrefixOf (d :: t) = false := by
  simp [List.isPrefixOf, h]

theorem matchLenAt_none_of_head (c : Char) (s : Str) (h : ¬ c = backtick) :
    matchLenAt (c :: s) = none := by
  have h1 : tripleTick.isPrefixOf (c :: s) = false :=
    isPrefixOf_head_ne _ _ _ _ (fun e => h e.symm)
  unfold matchLenAt
  rw [h1]
  simp

theorem findTripleTick_prepend (a b : Str) (h : backtick ∉ a) :
    findTripleTick (a ++ (tripleTick ++ b)) = some a.length := by
  induction a with
  | nil =>
    simp only [List.nil_append]
    have h1 : tripleTick ++ b = backtick :: backtick :: backtick :: b := rfl
    have hcond : tripleTick.isPrefixOf (backtick :: backtick :: backtick :: b) = true := by
      rw [← h1]; exact isPrefixOf_append_self _ _
    rw [h1]
    simp [findTripleTick, hcond]
  | cons c t ih =>
    have hc : ¬ backtick = c := by rintro rfl; exact h (List.mem_cons_self _ _)
    have ht : backtick ∉ t := fun m => h (List.mem_cons_of_mem _ m)
    have h1 : tripleTick.isPrefixOf (c :: (t ++ (tripleTick ++ b))) = false :=
      isPrefixOf_head_ne _ _ _ _ hc
    simp only [List.cons_append]
    simp [findTripleTick, h1, ih ht]

theorem takeWhile_spaces (k : Nat) (c : Char) (t : Str) (h : ¬ c = ' ') :
    (List.replicate k ' ' ++ c :: t).takeWhile (fun x => x = ' ') = List.replicate k ' ' := by
  induction k with
  | zero => simp [List.takeWhile_cons, h]
  | succ n ih => simpa [List.replicate_succ, List.takeWhile_cons] using ih

theorem matchLenAt_block (k : Nat) (mid rest : Str) (hmid : backtick ∉ mid) :
    matchLenAt (tripleTick ++ (List.replicate k ' ' ++ (tasklistTag ++ (mid ++ (tripleTick ++ rest)))))
      = some (3 + k + 10 + mid.length + 3) := by
  have hpre : tripleTick.isPrefixOf
      (tripleTick ++ (List.replicate k ' ' ++ (tasklistTag ++ (mid ++ (tripleTick ++ rest))))) = true :=
    isPrefixOf_append_self _ _
  have hdrop3 : (tripleTick ++ (List.replicate k ' ' ++ (tasklistTag ++ (mid ++ (tripleTick ++ rest))))).drop 3
      = List.replicate k ' ' ++ (tasklistTag ++ (mid ++ (tripleTick ++ rest))) := by
    have : (3 : Nat) = tripleTick.length := rfl
    rw [this, List.drop_left]
  have htag : tasklistTag ++ (mid ++ (tripleTick ++ rest))
      = '[' :: (("tasklist]").data ++ (mid ++ (tripleTick ++ rest))) := rfl
  have htake : (List.replicate k ' ' ++ (tasklistTag ++ (mid ++ (tripleTick ++ rest)))).takeWhile
      (fun x => x = ' ') = List.replicate k ' ' := by
    rw [htag]
    exact takeWhile_spaces k '[' _ (by decide)
  have hdropk : (List.replicate k ' ' ++ (tasklistTag ++ (mid ++ (tripleTick ++ rest)))).drop k
      = tasklistTag ++ (mid ++ (tripleTick ++ rest)) := by
    have : k = (List.replicate k ' ').length := (List.length_replicate k ' ').symm
    conv in List.drop k => rw [this]
    rw [List.drop_left]
  have hpre2 : tasklistTag.isPrefixOf (tasklistTag ++ (mid ++ (tripleTick ++ rest))) = true :=
    isPrefixOf_append_self _ _
  have hdropt : (tasklistTag ++ (mid ++ (tripleTick ++ rest))).drop tasklistTag.length
      = mid ++ (tripleTick ++ rest) := List.drop_left _ _
  have hfind : findTripleTick (mid ++ (tripleTick ++ rest)) = some mid.length :=
    findTripleTick_prepend mid rest hmid
  unfold matchLenAt
  rw [hpre]
  simp only [if_true]
  rw [hdrop3, htake, List.length_replicate, hdropk, hpre2]
  simp only [if_true]
  rw [hdropt, hfind]
  rfl

theorem blockText_assoc (k : Nat) (inner : List Str) (rest : Str) :
    blockText k inner ++ rest
      = tripleTick ++ (List.replicate k ' ' ++ (tasklistTag
          ++ (('\n' :: lineTerm inner) ++ (tripleTick ++ rest)))) := by
  simp [blockText, openLine, List.append_assoc]

theorem blockText_length (k : Nat) (inner : List Str) :
    (blockText k inner).length = 3 + k + 10 + ('\n' :: lineTerm inner).length + 3 := by
  have h1 : tripleTick.length = 3 := rfl
  have h2 : tasklistTag.length = 10 := rfl
  simp [blockText, openLine, h1, h2]
  omega

theorem matchLenAt_blockText (k : Nat) (inner : List Str) (rest : Str)
    (h : backtick ∉ lineTerm inner) :
    matchLenAt (blockText k inner ++ rest) = some (blockText k inner).length := by
  have hmid : backtick ∉ '\n' :: lineTerm inner := by
    intro hm
    rcases List.mem_cons.mp hm with h1 | h1
    · exact absurd h1 (by decide)
    · exact h h1
  rw [blockText_assoc, matchLenAt_block k ('\n' :: lineTerm inner) rest hmid,
    blockText_length]

theorem firstSplit_append (a b : Str) (h : ∀ c ∈ a, ¬ c = backtick) :
    firstSplit (a ++ b) = (firstSplit b).map (fun p => (a ++ p.1, p.2.1, p.2.2)) := by
  induction a with
  | nil => cases hb : firstSplit b <;> simp [hb]
  | cons c t ih =>
    have hc := h c (List.mem_cons_self c t)
    have ht : ∀ x ∈ t, ¬ x = backtick := fun x hx => h x (List.mem_cons_of_mem _ hx)
    simp only [List.cons_append]
    rw [show firstSplit (c :: (t ++ b))
        = (firstSplit (t ++ b)).map (fun p => (c :: p.1, p.2.1, p.2.2)) by
      simp [firstSplit, matchLenAt_none_of_head c _ hc]]
    rw [ih ht]
    cases hb : firstSplit b <;> simp [hb]

theorem firstSplit_of_match (c : Char) (t : Str) (n : Nat)
    (h : matchLenAt (c :: t) = some n) :
    firstSplit (c :: t) = some ([], (c :: t).take n, (c :: t).drop n) := by
  simp [firstSplit, h]

theorem firstSplit_none_of_no_tick (s : Str) (h : ∀ c ∈ s, ¬ c = backtick) :
    firstSplit s = none := by
  induction s with
  | nil => rfl
  | cons c t ih =>
    have hc := h c (List.mem_cons_self c t)
    have ht : ∀ x ∈ t, ¬ x = backtick := fun x hx => h x (List.mem_cons_of_mem _ hx)
    simp [firstSplit, matchLenAt_none_of_head c _ hc, ih ht]

theorem firstSplit_decomp (s p m q : Str) (h : firstSplit s = some (p, m, q)) :
    s = p ++ m ++ q := by
  induction s generalizing p with
  | nil => simp [firstSplit] at h
  | cons c t ih =>
    cases hm : matchLenAt (c :: t) with
    | some n =>
      rw [firstSplit, hm] at h
      obtain ⟨rfl, rfl, rfl⟩ : p = [] ∧ m = (c :: t).take n ∧ q = (c :: t).drop n := by
        simpa using h.symm
      simp
    | none =>
      rw [firstSplit, hm] at h
      obtain ⟨⟨p2, m2, q2⟩, h2, h3⟩ := Option.map_eq_some'.mp h
      obtain ⟨rfl, rfl, rfl⟩ : p = c :: p2 ∧ m = m2 ∧ q = q2 := by
        simpa using h3.symm
      simp [ih p2 h2]

theorem parseTemplateAux_no_backslash (tpl : Str) (fuel pos : Nat) (s : Str)
    (hf : s.length ≤ fuel) (hs : '\\' ∉ s) :
    parseTemplateAux tpl fuel pos s = Except.ok (s.map TItem.lch) := by
  induction fuel generalizing pos s with
  | zero =>
    have : s = [] := List.length_eq_zero.mp (Nat.le_zero.mp hf)
    subst this
    rfl
  | succ n ih =>
    cases s with
    | nil => rfl
    | cons c rest =>
      have hc : ¬ c = '\\' := fun he => hs (he ▸ List.mem_cons_self c rest)
      have hrest : '\\' ∉ rest := fun hm => hs (List.mem_cons_of_mem _ hm)
      have hr : ¬ rest = ['\\'] := by
        intro he
        exact hrest (he ▸ List.mem_singleton.mpr rfl)
      have hlen : rest.length ≤ n := by
        have := hf
        simp only [List.length_cons] at this
        omega
      simp only [parseTemplateAux, if_neg hc, if_neg hr, ih (pos + 1) rest hlen hrest,
        Except.map, List.map_cons]

theorem parseTemplate_no_backslash (tpl : Str) (h : '\\' ∉ tpl) :
    parseTemplate tpl = Except.ok (tpl.map TItem.lch) :=
  parseTemplateAux_no_backslash tpl (tpl.length + 1) 0 tpl (Nat.le_succ _) h

theorem expandTemplate_lch (whole : Str) (g1 : Option Str) (repl : Str) :
    expandTemplate whole g1 (repl.map TItem.lch) = repl := by
  induction repl with
  | nil => rfl
  | cons c rest ih =>
    simp only [expandTemplate, List.map_cons, List.flatten_cons] at ih ⊢
    rw [ih]
    rfl

theorem replace_no_match (body repl : Str) (hrepl : '\\' ∉ repl)
    (h : firstSplit body = none) :
    replace_tasklist_in_issue_body body repl = Except.ok body := by
  unfold replace_tasklist_in_issue_body
  rw [parseTemplate_no_backslash repl hrepl, h]

theorem replace_some (body repl : Str) (p m q : Str) (hrepl : '\\' ∉ repl)
    (h : firstSplit body = some (p, m, q)) :
    replace_tasklist_in_issue_body body repl = Except.ok (p ++ repl ++ q) := by
  unfold replace_tasklist_in_issue_body
  rw [parseTemplate_no_backslash repl hrepl, h]
  simp only [expandTemplate_lch]

/-! ## Ends of stripped strings, serialization round-trip -/

theorem pyStrip_ends (l : Str) (h : pyStrip l ≠ []) :
    (∃ c t, pyStrip l = c :: t ∧ isPySpace c = false) ∧
    (∃ a d, pyStrip l = a ++ [d] ∧ isPySpace d = false) := by
  constructor
  · rcases lstrip_head_not_space l with h1 | ⟨c2, t2, h1, h2⟩
    · exfalso; apply h; simp [pyStrip, h1, rstrip]
    · cases hl : pyStrip l with
      | nil => exact absurd hl h
      | cons c u =>
        refine ⟨c, u, rfl, ?_⟩
        have hl2 : rstrip (c2 :: t2) = c :: u := by
          rw [← h1]; exact hl
        rcases rstrip_prefix (c2 :: t2) with ⟨s, hs⟩
        rw [hl2] at hs
        have hcc : c2 = c := by
          have := congrArg (fun x => x.headD ' ') hs
          simpa using this
        rw [← hcc]
        exact h2
  · rcases rstrip_last_not_space (lstrip l) with h1 | ⟨a, d, h1, h2⟩
    · exact absurd h1 h
    · exact ⟨a, d, h1, h2⟩

theorem lstrip_space_cons (t : Str) : lstrip (' ' :: t) = lstrip t := by
  simp [lstrip, List.dropWhile_cons, isPySpace]

theorem pyStrip_space_cons (t : Str) : pyStrip (' ' :: t) = pyStrip t := by
  simp [pyStrip, lstrip_space_cons]

theorem mem_lineTerm {c : Char} {L : List Str} (h : c ∈ lineTerm L) :
    c = '\n' ∨ ∃ l ∈ L, c ∈ l := by
  induction L with
  | nil => simp [lineTerm] at h
  | cons l ls ih =>
    simp only [lineTerm, List.mem_append, List.mem_cons] at h
    rcases h with h | h | h
    · exact Or.inr ⟨l, List.mem_cons_self l ls, h⟩
    · exact Or.inl h
    · rcases ih h with h2 | ⟨x, hx, hc⟩
      · exact Or.inl h2
      · exact Or.inr ⟨x, List.mem_cons_of_mem _ hx, hc⟩

theorem mem_postText {c : Char} {P : List Str} (h : c ∈ postText P) :
    c = '\n' ∨ ∃ l ∈ P, c ∈ l := by
  induction P with
  | nil => simp [postText] at h
  | cons l ls ih =>
    simp only [postText, List.mem_cons, List.mem_append] at h
    rcases h with h | h | h
    · exact Or.inl h
    · exact Or.inr ⟨l, List.mem_cons_self l ls, h⟩
    · rcases ih h with h2 | ⟨x, hx, hc⟩
      · exact Or.inl h2
      · exact Or.inr ⟨x, List.mem_cons_of_mem _ hx, hc⟩

theorem lineTerm_append (A B : List Str) :
    lineTerm (A ++ B) = lineTerm A ++ lineTerm B := by
  induction A with
  | nil => simp [lineTerm]
  | cons l ls ih => simp [lineTerm, ih]

theorem postText_append (A B : List Str) :
    postText (A ++ B) = postText A ++ postText B := by
  induction A with
  | nil => simp [postText]
  | cons l ls ih => simp [postText, ih]

theorem newline_not_mem_openLine (k : Nat) : '\n' ∉ openLine k := by
  intro h
  simp only [openLine, List.mem_append] at h
  rcases h with (h | h) | h
  · exact absurd h (by decide)
  · exact absurd (List.eq_of_mem_replicate h) (by decide)
  · exact absurd h (by decide)

theorem backtick_char_not_space : isPySpace backtick = false := by decide

theorem pyStrip_openLine (k : Nat) : pyStrip (openLine k) = openLine k := by
  apply pyStrip_no_trim
  · exact ⟨backtick, [backtick, backtick] ++ List.replicate k ' ' ++ tasklistTag, rfl,
      backtick_char_not_space⟩
  · refine ⟨tripleTick ++ List.replicate k ' ' ++ (("[tasklist").data), ']', ?_, by decide⟩
    have htag : tasklistTag = ("[tasklist").data ++ [']'] := by decide
    simp [openLine, htag]

theorem taskOfLine_eq_none_of_head (line : Str)
    (h : pyStrip line = [] ∨ ∃ c t, pyStrip line = c :: t ∧ ¬ c = '-') :
    taskOfLine line = none := by
  have hmu : markerUnchecked = '-' :: (" [ ]").data := rfl
  have hmx : markerChecked = '-' :: (" [x]").data := rfl
  unfold taskOfLine
  rcases h with h | ⟨c, t, h, hc⟩ <;> rw [h]
  · simp [hmu, hmx, List.isPrefixOf]
  · rw [hmu, hmx, isPrefixOf_head_ne _ _ _ _ (by exact fun e => hc e.symm),
      isPrefixOf_head_ne _ _ _ _ (by exact fun e => hc e.symm)]
    simp

theorem taskOfLine_openLine (k : Nat) : taskOfLine (openLine k) = none := by
  apply taskOfLine_eq_none_of_head
  right
  refine ⟨backtick, [backtick, backtick] ++ List.replicate k ' ' ++ tasklistTag, ?_, by decide⟩
  rw [pyStrip_openLine]
  rfl

theorem taskOfLine_text {line : Str} {t : Task} (h : taskOfLine line = some t) :
    t.text = pyStrip (line.drop 5) := by
  unfold taskOfLine at h
  by_cases hc : (markerUnchecked.isPrefixOf (pyStrip line)
      || markerChecked.isPrefixOf (pyStrip line)) = true
  · rw [if_pos hc] at h
    cases h
    rfl
  · rw [if_neg hc] at h
    cases h

theorem taskOfLine_serLine (t : Task) (h1 : pyStrip t.text = t.text) :
    taskOfLine (serLine t) = some t := by
  obtain ⟨text, checked⟩ := t
  simp only at h1
  cases htext : text with
  | nil =>
    subst htext
    cases checked <;> decide
  | cons c0 rest =>
    have hne : pyStrip text ≠ [] := by rw [h1, htext]; simp
    obtain ⟨-, ⟨a, d, ha, hds⟩⟩ := pyStrip_ends text hne
    rw [h1] at ha
    cases checked with
    | false =>
      rw [← htext]
      have hser : serLine ⟨text, false⟩ = '-' :: ' ' :: '[' :: ' ' :: ']' :: ' ' :: text := by
        simp [serLine]
      have hstrip : pyStrip ('-' :: ' ' :: '[' :: ' ' :: ']' :: ' ' :: text)
          = '-' :: ' ' :: '[' :: ' ' :: ']' :: ' ' :: text := by
        apply pyStrip_no_trim
        · exact ⟨'-', _, rfl, by decide⟩
        · refine ⟨'-' :: ' ' :: '[' :: ' ' :: ']' :: ' ' :: a, d, ?_, hds⟩
          rw [ha]
          simp
      have hpre : markerUnchecked.isPrefixOf
          ('-' :: ' ' :: '[' :: ' ' :: ']' :: ' ' :: text) = true := by
        have he : ('-' :: ' ' :: '[' :: ' ' :: ']' :: ' ' :: text : Str)
            = markerUnchecked ++ (' ' :: text) := by simp [markerUnchecked]
        rw [he]
        exact isPrefixOf_append_self _ _
      rw [hser]
      unfold taskOfLine
      rw [hstrip, hpre]
      simp [pyStrip_space_cons, h1]
    | true =>
      rw [← htext]
      have hser : serLine ⟨text, true⟩ = '-' :: ' ' :: '[' :: 'x' :: ']' :: ' ' :: text := by
        simp [serLine]
      have hstrip : pyStrip ('-' :: ' ' :: '[' :: 'x' :: ']' :: ' ' :: text)
          = '-' :: ' ' :: '[' :: 'x' :: ']' :: ' ' :: text := by
        apply pyStrip_no_trim
        · exact ⟨'-', _, rfl, by decide⟩
        · refine ⟨'-' :: ' ' :: '[' :: 'x' :: ']' :: ' ' :: a, d, ?_, hds⟩
          rw [ha]
          simp
      have hpre : markerChecked.isPrefixOf
          ('-' :: ' ' :: '[' :: 'x' :: ']' :: ' ' :: text) = true := by
        have he : ('-' :: ' ' :: '[' :: 'x' :: ']' :: ' ' :: text : Str)
            = markerChecked ++ (' ' :: text) := by simp [markerChecked]
        rw [he]
        exact isPrefixOf_append_self _ _
      rw [hser]
      unfold taskOfLine
      rw [hstrip, hpre]
      simp [pyStrip_space_cons, h1]

theorem mem_serLine {c : Char} {t : Task} (h : c ∈ serLine t) :
    c ∈ t.text ∨ c = '-' ∨ c = ' ' ∨ c = '[' ∨ c = ']' ∨ c = 'x' := by
  cases hc : t.is_checked <;>
  · simp [serLine, hc] at h
    tauto

theorem newline_not_mem_serLine {t : Task} (h : '\n' ∉ t.text) : '\n' ∉ serLine t := by
  intro hm
  rcases mem_serLine hm with hm | hm | hm | hm | hm | hm
  · exact h hm
  all_goals exact absurd hm (by decide)

theorem backtick_not_mem_serLine {t : Task} (h : backtick ∉ t.text) :
    backtick ∉ serLine t := by
  intro hm
  rcases mem_serLine hm with hm | hm | hm | hm | hm | hm
  · exact h hm
  all_goals exact absurd hm (by decide)

theorem taskLine_eq (t : Task) : taskLine t = '\n' :: serLine t := by
  cases hc : t.is_checked <;> simp [taskLine, serLine, hc]

theorem flatten_map_taskLine (ts : List Task) :
    (ts.map taskLine).flatten = postText (ts.map serLine) := by
  induction ts with
  | nil => simp [postText]
  | cons t rest ih => simp [taskLine_eq, postText, ih]

theorem create_tasklist_eq (ts : List Task) (h : ts ≠ []) :
    create_tasklist_body ts
      = openLine 0 ++ '\n' :: ((("### Tasks").data)
          ++ postText (ts.map serLine ++ [tripleTick])) := by
  have hne : ts.isEmpty = false := by
    cases ts with
    | nil => exact absurd rfl h
    | cons a b => rfl
  have hhead : (("```[tasklist]\n### Tasks").data : Str)
      = openLine 0 ++ '\n' :: ("### Tasks").data := by decide
  have htail : (("\n```").data : Str) = '\n' :: tripleTick := by decide
  unfold create_tasklist_body
  rw [hne]
  simp only [Bool.false_eq_true, if_false, hhead, htail, flatten_map_taskLine,
    postText_append]
  have hopen0 : openLine 0 = ("```[tasklist]").data := by decide
  have htt : ('\n' :: tripleTick : Str) = ("\n```").data := by decide
  rw [hopen0]
  simp [postText, List.append_assoc, htt]

theorem create_match_shape (ts : List Task) (h : ts ≠ []) (rest : Str) :
    create_tasklist_body ts ++ rest
      = tripleTick ++ (List.replicate 0 ' ' ++ (tasklistTag
          ++ ((('\n' :: ((("### Tasks").data) ++ postText (ts.map serLine))) ++ ['\n'])
            ++ (tripleTick ++ rest)))) := by
  rw [create_tasklist_eq ts h]
  have hopen : openLine 0 = tripleTick ++ (List.replicate 0 ' ' ++ tasklistTag) := by
    simp [openLine]
  rw [hopen, postText_append]
  simp [postText, List.append_assoc]

theorem matchLenAt_create (ts : List Task) (hne : ts ≠ []) (rest : Str)
    (htick : ∀ t ∈ ts, backtick ∉ t.text) :
    matchLenAt (create_tasklist_body ts ++ rest) = some (create_tasklist_body ts).length := by
  have hmid : backtick ∉ (('\n' :: ((("### Tasks").data) ++ postText (ts.map serLine))) ++ ['\n']) := by
    intro hm
    rcases List.mem_append.mp hm with hm | hm
    · rcases List.mem_cons.mp hm with hm | hm
      · exact absurd hm (by decide)
      · rcases List.mem_append.mp hm with hm | hm
        · exact absurd hm (by decide)
        · rcases mem_postText hm with hm2 | ⟨l, hl, hc⟩
          · exact absurd hm2 (by decide)
          · obtain ⟨t, ht, rfl⟩ := List.mem_map.mp hl
            exact backtick_not_mem_serLine (htick t ht) hc
    · exact absurd hm (by decide)
  rw [create_match_shape ts hne rest,
    matchLenAt_block 0 _ rest hmid]
  have h0 := create_match_shape ts hne []
  rw [List.append_nil] at h0
  have hlen : (create_tasklist_body ts).length
      = 3 + 0 + 10 + ((('\n' :: ((("### Tasks").data) ++ postText (ts.map serLine))) ++ ['\n'])).length + 3 := by
    rw [h0]
    have h1 : tripleTick.length = 3 := rfl
    have h2 : tasklistTag.length = 10 := rfl
    simp [h1, h2]
    omega
  rw [hlen]

theorem filterMap_taskOfLine_serLine (ts : List Task)
    (hw : ∀ t ∈ ts, pyStrip t.text = t.text) :
    (ts.map serLine).filterMap taskOfLine = ts := by
  induction ts with
  | nil => rfl
  | cons t rest ih =>
    have h1 := taskOfLine_serLine t (hw t (List.mem_cons_self t rest))
    have h2 : ∀ x ∈ rest, pyStrip x.text = x.text :=
      fun x hx => hw x (List.mem_cons_of_mem _ hx)
    simp [List.filterMap_cons, h1, ih h2]

theorem extract_create (ts : List Task)
    (hw : ∀ t ∈ ts, pyStrip t.text = t.text)
    (hn : ∀ t ∈ ts, '\n' ∉ t.text) :
    extract_tasks (create_tasklist_body ts) = ts := by
  cases hts : ts with
  | nil => decide
  | cons t0 rest0 =>
    rw [← hts]
    have hne : ts ≠ [] := by rw [hts]; simp
    have hform : create_tasklist_body ts
        = lineTerm [openLine 0] ++ ((("### Tasks").data)
            ++ postText (ts.map serLine ++ [tripleTick])) := by
      rw [create_tasklist_eq ts hne]
      simp [lineTerm]
    rw [extract_tasks_eq, hform,
      splitOnChar_lineTerm [openLine 0] _ (by
        intro l hl
        rcases List.mem_singleton.mp hl with rfl
        exact newline_not_mem_openLine 0),
      splitOnChar_head_postText _ _ (by decide) (by
        intro l hl
        rcases List.mem_append.mp hl with hl | hl
        · obtain ⟨t, ht, rfl⟩ := List.mem_map.mp hl
          exact newline_not_mem_serLine (hn t ht)
        · rcases List.mem_singleton.mp hl with rfl
          decide)]
    have hhash : taskOfLine (("### Tasks").data) = none := by decide
    have htick : taskOfLine tripleTick = none := by decide
    simp [List.filterMap_append, List.filterMap_cons, taskOfLine_openLine 0, hhash,
      htick, filterMap_taskOfLine_serLine ts hw]

/-! ## The structured one-block body -/

theorem firstSplit_head_match (s : Str) (n : Nat) (h : matchLenAt s = some n) :
    firstSplit s = some ([], s.take n, s.drop n) := by
  cases s with
  | nil => rw [show matchLenAt ([] : Str) = none by decide] at h; cases h
  | cons c t => exact firstSplit_of_match c t n h

theorem no_tick_lineTerm (L : List Str) (h : ∀ l ∈ L, ∀ c ∈ l, ¬ c = backtick) :
    ∀ c ∈ lineTerm L, ¬ c = backtick := by
  intro c hc
  rcases mem_lineTerm hc with rfl | ⟨l, hl, hcl⟩
  · decide
  · exact h l hl c hcl

theorem no_tick_postText (P : List Str) (h : ∀ l ∈ P, ∀ c ∈ l, ¬ c = backtick) :
    ∀ c ∈ postText P, ¬ c = backtick := by
  intro c hc
  rcases mem_postText hc with rfl | ⟨l, hl, hcl⟩
  · decide
  · exact h l hl c hcl

theorem bodyOfParts_lineForm (preLines : List Str) (k : Nat) (innerLines postLines : List Str) :
    bodyOfParts preLines k innerLines postLines
      = lineTerm (preLines ++ openLine k :: innerLines) ++ (tripleTick ++ postText postLines) := by
  simp [bodyOfParts, blockText, lineTerm_append, lineTerm, List.append_assoc]

theorem bodyOfParts_lines (preLines : List Str) (k : Nat) (innerLines postLines : List Str)
    (hpre : ∀ l ∈ preLines, '\n' ∉ l) (hinner : ∀ l ∈ innerLines, '\n' ∉ l)
    (hpost : ∀ l ∈ postLines, '\n' ∉ l) :
    splitOnChar '\n' (bodyOfParts preLines k innerLines postLines)
      = preLines ++ openLine k :: (innerLines ++ tripleTick :: postLines) := by
  have h1 : ∀ l ∈ preLines ++ openLine k :: innerLines, '\n' ∉ l := by
    intro l hl
    rcases List.mem_append.mp hl with hl | hl
    · exact hpre l hl
    · rcases List.mem_cons.mp hl with rfl | hl
      · exact newline_not_mem_openLine k
      · exact hinner l hl
  rw [bodyOfParts_lineForm, splitOnChar_lineTerm _ _ h1,
    splitOnChar_head_postText _ _ (by decide) hpost]
  simp

theorem blockText_lines (k : Nat) (innerLines : List Str)
    (hinner : ∀ l ∈ innerLines, '\n' ∉ l) :
    splitOnChar '\n' (blockText k innerLines) = openLine k :: (innerLines ++ [tripleTick]) := by
  have hform : blockText k innerLines = lineTerm (openLine k :: innerLines) ++ tripleTick := by
    simp [blockText, lineTerm, List.append_assoc]
  have h1 : ∀ l ∈ openLine k :: innerLines, '\n' ∉ l := by
    intro l hl
    rcases List.mem_cons.mp hl with rfl | hl
    · exact newline_not_mem_openLine k
    · exact hinner l hl
  rw [hform, splitOnChar_lineTerm _ _ h1, splitOnChar_not_mem _ _ (by decide)]
  simp

theorem filterMap_lines_of_parts (preLines : List Str) (k : Nat)
    (innerLines postLines : List Str)
    (hpre : ∀ l ∈ preLines, taskOfLine l = none)
    (hpost : ∀ l ∈ postLines, taskOfLine l = none) :
    (preLines ++ openLine k :: (innerLines ++ tripleTick :: postLines)).filterMap taskOfLine
      = innerLines.filterMap taskOfLine := by
  rw [List.filterMap_append, List.filterMap_eq_nil_iff.mpr hpre, List.filterMap_cons,
    taskOfLine_openLine k, List.filterMap_append, List.filterMap_cons,
    show taskOfLine tripleTick = none by decide,
    List.filterMap_eq_nil_iff.mpr hpost]
  simp

theorem extract_bodyOfParts (preLines : List Str) (k : Nat)
    (innerLines postLines : List Str)
    (hpre1 : ∀ l ∈ preLines, '\n' ∉ l) (hpre2 : ∀ l ∈ preLines, taskOfLine l = none)
    (hinner : ∀ l ∈ innerLines, '\n' ∉ l)
    (hpost1 : ∀ l ∈ postLines, '\n' ∉ l) (hpost2 : ∀ l ∈ postLines, taskOfLine l = none) :
    extract_tasks (bodyOfParts preLines k innerLines postLines)
      = innerLines.filterMap taskOfLine := by
  rw [extract_tasks_eq, bodyOfParts_lines _ _ _ _ hpre1 hinner hpost1,
    filterMap_lines_of_parts _ _ _ _ hpre2 hpost2]

theorem firstSplit_bodyOfParts (preLines : List Str) (k : Nat)
    (innerLines postLines : List Str)
    (hpreB : ∀ l ∈ preLines, ∀ c ∈ l, ¬ c = backtick)
    (hinnerB : ∀ l ∈ innerLines, ∀ c ∈ l, ¬ c = backtick) :
    firstSplit (bodyOfParts preLines k innerLines postLines)
      = some (lineTerm preLines, blockText k innerLines, postText postLines) := by
  have hassoc : bodyOfParts preLines k innerLines postLines
      = lineTerm preLines ++ (blockText k innerLines ++ postText postLines) := by
    simp [bodyOfParts, List.append_assoc]
  have hmm : matchLenAt (blockText k innerLines ++ postText postLines)
      = some (blockText k innerLines).length :=
    matchLenAt_blockText k innerLines _ (fun hm => (no_tick_lineTerm _ hinnerB _ hm) rfl)
  rw [hassoc, firstSplit_append _ _ (no_tick_lineTerm _ hpreB),
    firstSplit_head_match _ _ hmm, List.take_left, List.drop_left]
  simp

theorem tasksOfFirstBlock_bodyOfParts (preLines : List Str) (k : Nat)
    (innerLines postLines : List Str)
    (hpreB : ∀ l ∈ preLines, ∀ c ∈ l, ¬ c = backtick)
    (hinner : ∀ l ∈ innerLines, '\n' ∉ l)
    (hinnerB : ∀ l ∈ innerLines, ∀ c ∈ l, ¬ c = backtick) :
    tasksOfFirstBlock (bodyOfParts preLines k innerLines postLines)
      = innerLines.filterMap taskOfLine := by
  unfold tasksOfFirstBlock
  rw [firstSplit_bodyOfParts _ _ _ _ hpreB hinnerB]
  simp only
  rw [extract_tasks_eq, blockText_lines _ _ hinner, List.filterMap_cons,
    taskOfLine_openLine k, List.filterMap_append, List.filterMap_cons,
    show taskOfLine tripleTick = none by decide]
  simp

theorem tasks_of_inner_props (innerLines : List Str)
    (hinner : ∀ l ∈ innerLines, '\n' ∉ l)
    (hinnerB : ∀ l ∈ innerLines, ∀ c ∈ l, ¬ c = backtick) :
    ∀ t ∈ innerLines.filterMap taskOfLine,
      pyStrip t.text = t.text ∧ '\n' ∉ t.text ∧ backtick ∉ t.text := by
  intro t ht
  obtain ⟨l, hl, hsome⟩ := List.mem_filterMap.mp ht
  have htxt := taskOfLine_text hsome
  refine ⟨?_, ?_, ?_⟩
  · rw [htxt]
    exact pyStrip_idem _
  · intro hc
    rw [htxt] at hc
    exact hinner l hl (List.mem_of_mem_drop (mem_of_mem_pyStrip hc))
  · intro hc
    rw [htxt] at hc
    exact hinnerB l hl backtick (List.mem_of_mem_drop (mem_of_mem_pyStrip hc)) rfl

theorem backslash_not_mem_serLine {t : Task} (h : '\\' ∉ t.text) : '\\' ∉ serLine t := by
  intro hm
  rcases mem_serLine hm with hm | hm | hm | hm | hm | hm
  · exact h hm
  all_goals exact absurd hm (by decide)

theorem backslash_not_mem_create (ts : List Task) (h : ∀ t ∈ ts, '\\' ∉ t.text) :
    '\\' ∉ create_tasklist_body ts := by
  cases hts : ts with
  | nil => simp [create_tasklist_body]
  | cons t0 rest0 =>
    rw [← hts]
    have hne : ts ≠ [] := by rw [hts]; simp
    rw [create_tasklist_eq ts hne]
    intro hm
    rcases List.mem_append.mp hm with hm | hm
    · exact absurd hm (by decide)
    · rcases List.mem_cons.mp hm with hm | hm
      · exact absurd hm (by decide)
      · rcases List.mem_append.mp hm with hm | hm
        · exact absurd hm (by decide)
        · rcases mem_postText hm with hm2 | ⟨l, hl, hc⟩
          · exact absurd hm2 (by decide)
          · rcases List.mem_append.mp hl with hl | hl
            · obtain ⟨t, ht, rfl⟩ := List.mem_map.mp hl
              exact backslash_not_mem_serLine (h t ht) hc
            · rcases List.mem_singleton.mp hl with rfl
              exact absurd hc (by decide)

theorem tasks_of_inner_backslash (innerLines : List Str)
    (hinnerS : ∀ l ∈ innerLines, '\\' ∉ l) :
    ∀ t ∈ innerLines.filterMap taskOfLine, '\\' ∉ t.text := by
  intro t ht hc
  obtain ⟨l, hl, hsome⟩ := List.mem_filterMap.mp ht
  rw [taskOfLine_text hsome] at hc
  exact hinnerS l hl (List.mem_of_mem_drop (mem_of_mem_pyStrip hc))

theorem replace_bodyOfParts (preLines : List Str) (k : Nat)
    (innerLines postLines : List Str) (repl : Str)
    (hpreB : ∀ l ∈ preLines, ∀ c ∈ l, ¬ c = backtick)
    (hinnerB : ∀ l ∈ innerLines, ∀ c ∈ l, ¬ c = backtick)
    (hrepl : '\\' ∉ repl) :
    replace_tasklist_in_issue_body (bodyOfParts preLines k innerLines postLines) repl
      = Except.ok (lineTerm preLines ++ (repl ++ postText postLines)) := by
  rw [replace_some _ _ _ _ _ hrepl (firstSplit_bodyOfParts _ _ _ _ hpreB hinnerB)]
  simp [List.append_assoc]

/-! ## Claim C5 -/

/-- C5 (counterexample): as stated, the round-trip claim fails on a body
that contains exactly one fenced `[tasklist]` block but also a checkbox
line outside it: `extract_tasks` collects the outside line too, so the
rewritten block gains an item the original block did not have. -/
theorem C5_counterexample :
    countBlocks c5Body = 1 ∧
      (replace_tasklist_in_issue_body c5Body
          (create_tasklist_body (extract_tasks c5Body))).map tasksOfFirstBlock
        ≠ Except.ok (tasksOfFirstBlock c5Body) := by
  constructor
  · decide
  · decide

/-- C5 (amended): for a body made of newline-free, backtick-free,
non-checklist prefix and suffix lines around a single fenced `[tasklist]`
block (three backticks, any number of spaces, the tag) whose interior
lines are newline-, backtick- and backslash-free, embedding
`create_tasklist_body (extract_tasks body)` via
`replace_tasklist_in_issue_body` succeeds (the re-serialized checklist is
a well-formed, escape-free replacement template) and yields a body whose
first checklist block has exactly the items of the original block: same
texts, same checked states, same order. -/
theorem C5_roundtrip_amended (preLines postLines innerLines : List Str) (k : Nat)
    (hpre : ∀ l ∈ preLines, '\n' ∉ l ∧ (∀ c ∈ l, ¬ c = backtick) ∧ taskOfLine l = none)
    (hpost : ∀ l ∈ postLines, '\n' ∉ l ∧ (∀ c ∈ l, ¬ c = backtick) ∧ taskOfLine l = none)
    (hinner : ∀ l ∈ innerLines, '\n' ∉ l ∧ (∀ c ∈ l, ¬ c = backtick) ∧ '\\' ∉ l) :
    (replace_tasklist_in_issue_body
        (bodyOfParts preLines k innerLines postLines)
        (create_tasklist_body
          (extract_tasks (bodyOfParts preLines k innerLines postLines)))).map
        tasksOfFirstBlock
      = Except.ok (tasksOfFirstBlock (bodyOfParts preLines k innerLines postLines)) := by
  have hpre1 : ∀ l ∈ preLines, '\n' ∉ l := fun l hl => (hpre l hl).1
  have hpreB : ∀ l ∈ preLines, ∀ c ∈ l, ¬ c = backtick := fun l hl => (hpre l hl).2.1
  have hpre2 : ∀ l ∈ preLines, taskOfLine l = none := fun l hl => (hpre l hl).2.2
  have hpost1 : ∀ l ∈ postLines, '\n' ∉ l := fun l hl => (hpost l hl).1
  have hpostB : ∀ l ∈ postLines, ∀ c ∈ l, ¬ c = backtick := fun l hl => (hpost l hl).2.1
  have hpost2 : ∀ l ∈ postLines, taskOfLine l = none := fun l hl => (hpost l hl).2.2
  have hinner1 : ∀ l ∈ innerLines, '\n' ∉ l := fun l hl => (hinner l hl).1
  have hinnerB : ∀ l ∈ innerLines, ∀ c ∈ l, ¬ c = backtick := fun l hl => (hinner l hl).2.1
  have hinnerS : ∀ l ∈ innerLines, '\\' ∉ l := fun l hl => (hinner l hl).2.2
  have hex : extract_tasks (bodyOfParts preLines k innerLines postLines)
      = innerLines.filterMap taskOfLine :=
    extract_bodyOfParts _ _ _ _ hpre1 hpre2 hinner1 hpost1 hpost2
  have hblock : tasksOfFirstBlock (bodyOfParts preLines k innerLines postLines)
      = innerLines.filterMap taskOfLine :=
    tasksOfFirstBlock_bodyOfParts _ _ _ _ hpreB hinner1 hinnerB
  have hprops := tasks_of_inner_props innerLines hinner1 hinnerB
  have hreplS : '\\' ∉ create_tasklist_body (innerLines.filterMap taskOfLine) :=
    backslash_not_mem_create _ (tasks_of_inner_backslash innerLines hinnerS)
  rw [hex, hblock,
    replace_bodyOfParts _ _ _ _ _ hpreB hinnerB hreplS]
  simp only [Except.map]
  by_cases hne : innerLines.filterMap taskOfLine = []
  · rw [hne, show create_tasklist_body [] = [] from rfl]
    unfold tasksOfFirstBlock
    rw [firstSplit_none_of_no_tick _ (by
      intro c hc
      rcases List.mem_append.mp hc with hc | hc
      · exact no_tick_lineTerm _ hpreB c hc
      · rcases List.mem_append.mp hc with hc | hc
        · simp at hc
        · exact no_tick_postText _ hpostB c hc)]
  · have hw : ∀ t ∈ innerLines.filterMap taskOfLine, pyStrip t.text = t.text :=
      fun t ht => (hprops t ht).1
    have hn : ∀ t ∈ innerLines.filterMap taskOfLine, '\n' ∉ t.text :=
      fun t ht => (hprops t ht).2.1
    have htick : ∀ t ∈ innerLines.filterMap taskOfLine, backtick ∉ t.text :=
      fun t ht => (hprops t ht).2.2
    have hmmc : matchLenAt (create_tasklist_body (innerLines.filterMap taskOfLine)
        ++ postText postLines)
        = some (create_tasklist_body (innerLines.filterMap taskOfLine)).length :=
      matchLenAt_create _ hne _ htick
    unfold tasksOfFirstBlock
    rw [firstSplit_append _ _ (no_tick_lineTerm _ hpreB),
      firstSplit_head_match _ _ hmmc, List.take_left, List.drop_left]
    exact congrArg Except.ok (extract_create _ hw hn)

/-- C5 (witness): the amended round-trip at a concrete body with a prefix
line, one space after the fence, a heading and a checkbox line inside the
block, and a suffix line. -/
theorem C5_roundtrip_amended_witness :
    (replace_tasklist_in_issue_body
        (bodyOfParts [("Intro").data] 1 [("### Tasks").data, ("- [ ] a").data] [("Outro").data])
        (create_tasklist_body (extract_tasks
          (bodyOfParts [("Intro").data] 1
            [("### Tasks").data, ("- [ ] a").data] [("Outro").data])))).map tasksOfFirstBlock
      = Except.ok (tasksOfFirstBlock
          (bodyOfParts [("Intro").data] 1
            [("### Tasks").data, ("- [ ] a").data] [("Outro").data])) :=
  C5_roundtrip_amended [("Intro").data] [("Outro").data]
    [("### Tasks").data, ("- [ ] a").data] 1 (by decide) (by decide) (by decide)

/-! ## Claim C3 -/

/-- C3 (counterexample): on the single indented line `" - [ ] foo"` the
source takes `line[5:]` of the raw line and yields the task text
`"] foo"`, not the remainder after the checkbox marker `"foo"` that the
claim describes. -/
theorem C3_counterexample :
    extract_tasks c3Line ≠ extractTasksSpec c3Line ∧
      extract_tasks c3Line = [⟨("] foo").data, false⟩] ∧
      extractTasksSpec c3Line = [⟨("foo").data, false⟩] :=
  ⟨by decide, by decide, by decide⟩

/-- C3 (amended): `extract_tasks` returns, in source order, exactly one
task per line whose stripped form starts with `- [ ]` or `- [x]`; the
checked flag is true iff character 3 of the stripped line is `x`, and the
text is the remainder of the *raw* line after its first five characters,
trimmed (for unindented lines this is the remainder after the marker). -/
theorem C3_extract_tasks_amended :
    (∀ body, extract_tasks body = (splitOnChar '\n' body).filterMap taskOfLine) ∧
      (∀ line t, taskOfLine line = some t →
        (t.is_checked = true ↔ (pyStrip line).getD 3 ' ' = 'x') ∧
          t.text = pyStrip (line.drop 5)) ∧
      (∀ line, taskOfLine line = none ↔
        (markerUnchecked.isPrefixOf (pyStrip line) = false ∧
          markerChecked.isPrefixOf (pyStrip line) = false)) := by
  refine ⟨extract_tasks_eq, ?_, ?_⟩
  · intro line t h
    unfold taskOfLine at h
    by_cases hc : (markerUnchecked.isPrefixOf (pyStrip line)
        || markerChecked.isPrefixOf (pyStrip line)) = true
    · rw [if_pos hc] at h
      cases h
      constructor
      · simp
      · rfl
    · rw [if_neg hc] at h
      cases h
  · intro line
    unfold taskOfLine
    by_cases hc : (markerUnchecked.isPrefixOf (pyStrip line)
        || markerChecked.isPrefixOf (pyStrip line)) = true
    · rw [if_pos hc]
      simp only [Bool.or_eq_true] at hc
      constructor
      · intro h; cases h
      · intro ⟨h1, h2⟩
        rcases hc with hc | hc
        · rw [hc] at h1; cases h1
        · rw [hc] at h2; cases h2
    · rw [if_neg hc]
      simp only [Bool.or_eq_true] at hc
      constructor
      · intro _
        constructor
        · cases h1 : markerUnchecked.isPrefixOf (pyStrip line)
          · rfl
          · exact absurd (Or.inl h1) hc
        · cases h2 : markerChecked.isPrefixOf (pyStrip line)
          · rfl
          · exact absurd (Or.inr h2) hc
      · intro _; rfl

/-- C3 (witness): the amended description at a concrete body and a
concrete checked line. -/
theorem C3_extract_tasks_amended_witness :
    extract_tasks (("x\n- [x] done\n").data)
        = (splitOnChar '\n' (("x\n- [x] done\n").data)).filterMap taskOfLine ∧
      (((⟨("done").data, true⟩ : Task).is_checked = true
          ↔ (pyStrip (("- [x] done").data)).getD 3 ' ' = 'x') ∧
        (⟨("done").data, true⟩ : Task).text = pyStrip ((("- [x] done").data).drop 5)) :=
  ⟨C3_extract_tasks_amended.1 (("x\n- [x] done\n").data),
    C3_extract_tasks_amended.2.1 (("- [x] done").data) ⟨("done").data, true⟩ (by decide)⟩

/-! ## Claim C4 -/

/-- C4 (counterexample): the replacement string is not inserted verbatim.
On the body `c4Body` (one block, the whole string, so `p = q = ""`) the
replacement `\1` yields the newline captured last by group 1 rather than
the two characters of the replacement string, and the replacement `\d`
raises `re.error` instead of returning a string at all — even though the
repository builds replacements from user-controlled issue-body text. -/
theorem C4_counterexample :
    firstSplit c4Body = some ([], c4Body, []) ∧
      replace_tasklist_in_issue_body c4Body c4ReplRef = Except.ok ['\n'] ∧
      replace_tasklist_in_issue_body c4Body c4ReplRef
        ≠ Except.ok ([] ++ c4ReplRef ++ []) ∧
      replace_tasklist_in_issue_body c4Body c4ReplBad
        = Except.error (("bad escape \\d at position 0").data) := by
  refine ⟨by decide, by decide, by decide, by decide⟩

/-- C4 (amended): for replacement strings free of backslashes (so the
`re.sub` template is all literals) the claim holds: substitution succeeds,
replaces exactly the first tasklist-pattern match, and leaves every other
character unchanged; when no match exists the body is returned as is. -/
theorem C4_replace_amended (body repl : Str) (hrepl : '\\' ∉ repl) :
    (firstSplit body = none →
        replace_tasklist_in_issue_body body repl = Except.ok body) ∧
      ∀ p m q, firstSplit body = some (p, m, q) →
        body = p ++ m ++ q ∧
          replace_tasklist_in_issue_body body repl = Except.ok (p ++ repl ++ q) := by
  constructor
  · exact fun h => replace_no_match body repl hrepl h
  · exact fun p m q h =>
      ⟨firstSplit_decomp body p m q h, replace_some body repl p m q hrepl h⟩

/-- C4 (witness): the concrete body `"x\n```[tasklist]\nmid\n``` y"` with
replacement `"R"`: the block is replaced, the prefix and suffix stay. -/
theorem C4_replace_amended_witness :
    ("x\n```[tasklist]\nmid\n``` y").data
        = ("x\n").data ++ ("```[tasklist]\nmid\n```").data ++ (" y").data ∧
      replace_tasklist_in_issue_body (("x\n```[tasklist]\nmid\n``` y").data) (("R").data)
        = Except.ok (("x\n").data ++ ("R").data ++ (" y").data) :=
  (C4_replace_amended (("x\n```[tasklist]\nmid\n``` y").data) (("R").data) (by decide)).2
    (("x\n").data) (("```[tasklist]\nmid\n```").data) ((" y").data) (by decide)

/-! ## Claims C8 and C9 -/

/-- C8: for every well-formed URL `https://github.com/<owner>/<repo>/issues/<N>`
(segments free of slashes and whitespace), `is_github_issue_url` returns
true and `split_github_issue_url` returns the owner, repo and issue id. -/
theorem C8_wellformed_url (owner repo num : Str)
    (h1 : '/' ∉ owner) (h2 : '/' ∉ repo) (h3 : '/' ∉ num)
    (h6 : ∀ c ∈ num, isPySpace c = false) :
    is_github_issue_url
        (GITHUB_BASE_URL ++ (owner ++ '/' :: (repo ++ '/' :: (issuesSeg ++ '/' :: num)))) = true ∧
      split_github_issue_url
        (GITHUB_BASE_URL ++ (owner ++ '/' :: (repo ++ '/' :: (issuesSeg ++ '/' :: num))))
        = Except.ok ⟨owner, repo, num⟩ := by
  have hb : GITHUB_BASE_URL.isPrefixOf
      (GITHUB_BASE_URL ++ (owner ++ '/' :: (repo ++ '/' :: (issuesSeg ++ '/' :: num)))) = true :=
    isPrefixOf_append_self _ _
  have hdrop : (GITHUB_BASE_URL ++ (owner ++ '/' :: (repo ++ '/' :: (issuesSeg ++ '/' :: num)))).drop
      GITHUB_BASE_URL.length = owner ++ '/' :: (repo ++ '/' :: (issuesSeg ++ '/' :: num)) :=
    List.drop_left _ _
  have hsplit : splitOnChar '/' (owner ++ '/' :: (repo ++ '/' :: (issuesSeg ++ '/' :: num)))
      = [owner, repo, issuesSeg, num] := by
    rw [splitOnChar_append_cons _ _ _ h1, splitOnChar_append_cons _ _ _ h2,
      splitOnChar_append_cons _ _ _ (by decide), splitOnChar_not_mem _ _ h3]
  have hstrip : pyStrip
      (GITHUB_BASE_URL ++ (owner ++ '/' :: (repo ++ '/' :: (issuesSeg ++ '/' :: num))))
      = GITHUB_BASE_URL ++ (owner ++ '/' :: (repo ++ '/' :: (issuesSeg ++ '/' :: num))) := by
    apply pyStrip_no_trim
    · exact ⟨'h', _, rfl, by decide⟩
    · rcases List.eq_nil_or_concat num with hnum | ⟨L, b, hnum⟩
      · refine ⟨GITHUB_BASE_URL ++ (owner ++ '/' :: (repo ++ '/' :: issuesSeg)), '/', ?_, by decide⟩
        rw [hnum]
        simp
      · have hbmem : b ∈ num := by rw [hnum]; simp
        refine ⟨GITHUB_BASE_URL ++ (owner ++ '/' :: (repo ++ '/' :: (issuesSeg ++ '/' :: L))), b,
          ?_, h6 b hbmem⟩
        rw [hnum]
        simp
  constructor
  · unfold is_github_issue_url
    rw [hstrip, hb]
    simp only [if_true]
    rw [hdrop, hsplit]
    simp
  · unfold split_github_issue_url
    rw [hb]
    simp only [if_true]
    rw [hdrop, hsplit]
    simp

/-- C8 (witness): the theorem at owner `shirey`, repo `tasks2subissues`,
issue number 17. -/
theorem C8_wellformed_url_witness :
    is_github_issue_url
        (GITHUB_BASE_URL ++ ((("shirey").data) ++ '/' :: ((("tasks2subissues").data)
          ++ '/' :: (issuesSeg ++ '/' :: (("17").data))))) = true ∧
      split_github_issue_url
        (GITHUB_BASE_URL ++ ((("shirey").data) ++ '/' :: ((("tasks2subissues").data)
          ++ '/' :: (issuesSeg ++ '/' :: (("17").data)))))
        = Except.ok ⟨("shirey").data, ("tasks2subissues").data, ("17").data⟩ :=
  C8_wellformed_url (("shirey").data) (("tasks2subissues").data) (("17").data)
    (by decide) (by decide) (by decide) (by decide)

/-- C9: `is_github_issue_url` strips its input before checking while
`split_github_issue_url` does not, so on a valid issue URL with leading
whitespace the former returns true and the latter raises `ValueError`. -/
theorem C9_is_url_split_disagree :
    is_github_issue_url ((" https://github.com/a/b/issues/1").data) = true ∧
      split_github_issue_url ((" https://github.com/a/b/issues/1").data)
        = Except.error (("GitHub issue URL must start with https://github.com/").data) :=
  ⟨by decide, by decide⟩

/-! ## Classification -/

theorem classify_foldl (po : Str) (ts : List Task) :
    ∀ init : Buckets, ts.foldl (classifyStep po) init
      = ⟨init.same_owner_urls ++ ts.filterMap (fun t =>
            if is_github_issue_url t.text then
              match split_github_issue_url t.text with
              | Except.ok sub => if po = sub.owner then some t.text else none
              | Except.error _ => none
            else none),
          init.different_owner_urls ++ ts.filterMap (fun t =>
            if is_github_issue_url t.text then
              match split_github_issue_url t.text with
              | Except.ok sub => if po = sub.owner then none else some t.text
              | Except.error _ => none
            else none),
          init.non_issue_tasks ++ ts.filter (fun t => ! is_github_issue_url t.text),
          init.error_count + (ts.filter (fun t =>
            if is_github_issue_url t.text then
              match split_github_issue_url t.text with
              | Except.ok _ => false
              | Except.error _ => true
            else false)).length⟩ := by
  induction ts with
  | nil => intro init; simp
  | cons t rest ih =>
    intro init
    rw [List.foldl_cons, ih]
    cases h1 : is_github_issue_url t.text with
    | false =>
      simp [classifyStep, h1, List.filterMap_cons, List.filter_cons, List.append_assoc]
    | true =>
      cases h2 : split_github_issue_url t.text with
      | error e =>
        simp [classifyStep, h1, h2, List.filterMap_cons, List.filter_cons]
        omega
      | ok sub =>
        by_cases h3 : po = sub.owner
        · simp [classifyStep, h1, h2, h3, List.filterMap_cons, List.filter_cons,
            List.append_assoc]
        · simp [classifyStep, h1, h2, h3, List.filterMap_cons, List.filter_cons,
            List.append_assoc]

theorem sameF_some {po : Str} {t : Task} {u : Str}
    (h : (if is_github_issue_url t.text then
        match split_github_issue_url t.text with
        | Except.ok sub => if po = sub.owner then some t.text else none
        | Except.error _ => none
      else none) = some u) :
    u = t.text ∧ is_github_issue_url t.text = true ∧
      ∃ sub, split_github_issue_url t.text = Except.ok sub ∧ po = sub.owner := by
  cases h1 : is_github_issue_url t.text with
  | false => rw [h1] at h; simp at h
  | true =>
    rw [h1] at h
    simp only [if_true] at h
    cases h2 : split_github_issue_url t.text with
    | error e => rw [h2] at h; simp at h
    | ok sub =>
      rw [h2] at h
      by_cases h3 : po = sub.owner
      · simp [h3] at h
        exact ⟨h.symm, rfl, sub, rfl, h3⟩
      · simp [h3] at h

theorem diffF_some {po : Str} {t : Task} {u : Str}
    (h : (if is_github_issue_url t.text then
        match split_github_issue_url t.text with
        | Except.ok sub => if po = sub.owner then none else some t.text
        | Except.error _ => none
      else none) = some u) :
    u = t.text ∧ is_github_issue_url t.text = true ∧
      ∃ sub, split_github_issue_url t.text = Except.ok sub ∧ ¬ po = sub.owner := by
  cases h1 : is_github_issue_url t.text with
  | false => rw [h1] at h; simp at h
  | true =>
    rw [h1] at h
    simp only [if_true] at h
    cases h2 : split_github_issue_url t.text with
    | error e => rw [h2] at h; simp at h
    | ok sub =>
      rw [h2] at h
      by_cases h3 : po = sub.owner
      · simp [h3] at h
      · simp [h3] at h
        exact ⟨h.symm, rfl, sub, rfl, h3⟩

theorem classifyTasks_eq (po : Str) (ts : List Task) :
    classifyTasks po ts
      = ⟨ts.filterMap (fun t =>
            if is_github_issue_url t.text then
              match split_github_issue_url t.text with
              | Except.ok sub => if po = sub.owner then some t.text else none
              | Except.error _ => none
            else none),
          ts.filterMap (fun t =>
            if is_github_issue_url t.text then
              match split_github_issue_url t.text with
              | Except.ok sub => if po = sub.owner then none else some t.text
              | Except.error _ => none
            else none),
          ts.filter (fun t => ! is_github_issue_url t.text),
          (ts.filter (fun t =>
            if is_github_issue_url t.text then
              match split_github_issue_url t.text with
              | Except.ok _ => false
              | Except.error _ => true
            else false)).length⟩ := by
  unfold classifyTasks
  rw [classify_foldl]
  simp

/-! ## Claim C6 -/

/-- C6: every task whose text parses as an issue URL with the parent's
owner goes only to the same-owner bucket, one with a different owner only
to the different-owner bucket, and every non-URL task only to the
non-issue bucket; on the spec's example for a parent owned by `orgA` the
buckets are exactly the two URLs and `buy milk`, with no errors. -/
theorem C6_classification :
    (∀ (po : Str) (tasks : List Task) (t : Task) (r : IssueRef), t ∈ tasks →
        is_github_issue_url t.text = true →
        split_github_issue_url t.text = Except.ok r →
        ((r.owner = po →
            t.text ∈ (classifyTasks po tasks).same_owner_urls
              ∧ t.text ∉ (classifyTasks po tasks).different_owner_urls
              ∧ t ∉ (classifyTasks po tasks).non_issue_tasks)
          ∧ (¬ r.owner = po →
            t.text ∈ (classifyTasks po tasks).different_owner_urls
              ∧ t.text ∉ (classifyTasks po tasks).same_owner_urls
              ∧ t ∉ (classifyTasks po tasks).non_issue_tasks))) ∧
      (∀ (po : Str) (tasks : List Task) (t : Task), t ∈ tasks →
        is_github_issue_url t.text = false →
        t ∈ (classifyTasks po tasks).non_issue_tasks
          ∧ t.text ∉ (classifyTasks po tasks).same_owner_urls
          ∧ t.text ∉ (classifyTasks po tasks).different_owner_urls) ∧
      classifyTasks (("orgA").data) exTasksC6
        = ⟨[("https://github.com/orgA/r/issues/1").data],
            [("https://github.com/orgB/r/issues/2").data],
            [⟨("buy milk").data, false⟩], 0⟩ := by
  refine ⟨?_, ?_, by decide⟩
  · intro po tasks t r ht hurl hsplit
    rw [classifyTasks_eq po tasks]
    constructor
    · intro howner
      refine ⟨?_, ?_, ?_⟩
      · exact List.mem_filterMap.mpr ⟨t, ht, by simp [hurl, hsplit, howner.symm]⟩
      · intro hmem
        obtain ⟨t2, ht2, hf2⟩ := List.mem_filterMap.mp hmem
        obtain ⟨hu, hurl2, sub2, hsplit2, hne⟩ := diffF_some hf2
        rw [← hu] at hsplit2
        rw [hsplit] at hsplit2
        cases hsplit2
        exact hne howner.symm
      · intro hmem
        have := (List.mem_filter.mp hmem).2
        rw [hurl] at this
        cases this
    · intro howner
      refine ⟨?_, ?_, ?_⟩
      · refine List.mem_filterMap.mpr ⟨t, ht, ?_⟩
        have hne : ¬ po = r.owner := fun e => howner e.symm
        simp [hurl, hsplit, hne]
      · intro hmem
        obtain ⟨t2, ht2, hf2⟩ := List.mem_filterMap.mp hmem
        obtain ⟨hu, hurl2, sub2, hsplit2, heq⟩ := sameF_some hf2
        rw [← hu] at hsplit2
        rw [hsplit] at hsplit2
        cases hsplit2
        exact howner heq.symm
      · intro hmem
        have := (List.mem_filter.mp hmem).2
        rw [hurl] at this
        cases this
  · intro po tasks t ht hurl
    rw [classifyTasks_eq po tasks]
    refine ⟨?_, ?_, ?_⟩
    · exact List.mem_filter.mpr ⟨ht, by simp [hurl]⟩
    · intro hmem
      obtain ⟨t2, ht2, hf2⟩ := List.mem_filterMap.mp hmem
      obtain ⟨hu, hurl2, _, _, _⟩ := sameF_some hf2
      rw [← hu] at hurl2
      rw [hurl] at hurl2
      cases hurl2
    · intro hmem
      obtain ⟨t2, ht2, hf2⟩ := List.mem_filterMap.mp hmem
      obtain ⟨hu, hurl2, _, _, _⟩ := diffF_some hf2
      rw [← hu] at hurl2
      rw [hurl] at hurl2
      cases hurl2

/-- C6 (witness): the same-owner URL of the spec's example lands only in
the same-owner bucket. -/
theorem C6_classification_witness :
    ("https://github.com/orgA/r/issues/1").data
        ∈ (classifyTasks (("orgA").data) exTasksC6).same_owner_urls
      ∧ ("https://github.com/orgA/r/issues/1").data
          ∉ (classifyTasks (("orgA").data) exTasksC6).different_owner_urls
      ∧ (⟨("https://github.com/orgA/r/issues/1").data, false⟩ : Task)
          ∉ (classifyTasks (("orgA").data) exTasksC6).non_issue_tasks :=
  (C6_classification.1 (("orgA").data) exTasksC6
      ⟨("https://github.com/orgA/r/issues/1").data, false⟩
      ⟨("orgA").data, ("r").data, ("1").data⟩
      (by decide) (by decide) (by decide)).1 (by decide)

/-! ## Request-log facts for the orchestrator -/

theorem hasPatchBody_append (a b : List Req) :
    hasPatchBody (a ++ b) = (hasPatchBody a || hasPatchBody b) := by
  simp [hasPatchBody]

theorem onlyFetch_no_reqs (l : List Req)
    (h : ∀ r ∈ l, ∃ o rp n, r = Req.fetchIssue o rp n) :
    hasPatchBody l = false ∧ hasCreateReq l = false ∧ hasLinkReq l = false := by
  induction l with
  | nil => exact ⟨rfl, rfl, rfl⟩
  | cons r t ih =>
    obtain ⟨o, rp, n, rfl⟩ := h r (List.mem_cons_self r t)
    have ht := ih (fun x hx => h x (List.mem_cons_of_mem _ hx))
    have e1 : hasPatchBody (Req.fetchIssue o rp n :: t) = hasPatchBody t := by
      simp [hasPatchBody]
    have e2 : hasCreateReq (Req.fetchIssue o rp n :: t) = hasCreateReq t := by
      simp [hasCreateReq]
    have e3 : hasLinkReq (Req.fetchIssue o rp n :: t) = hasLinkReq t := by
      simp [hasLinkReq]
    rw [e1, e2, e3]
    exact ht

theorem fetch_issue_node_id_onlyFetch (w : World) (u : Str) :
    ∀ r ∈ (fetch_issue_node_id w u).1, ∃ a b c, r = Req.fetchIssue a b c := by
  intro r hr
  unfold fetch_issue_node_id at hr
  cases hsp : split_github_issue_url u with
  | error e => rw [hsp] at hr; simp at hr
  | ok p =>
    rw [hsp] at hr
    simp only [fetch_issue_details] at hr
    cases hw : w.fetchIssue p.owner p.repo p.issue_id with
    | error e =>
      rw [hw] at hr
      simp at hr
      exact ⟨_, _, _, hr⟩
    | ok d =>
      rw [hw] at hr
      cases hd : d.node_id with
      | some nid => simp [hd] at hr; exact ⟨_, _, _, hr⟩
      | none => simp [hd] at hr; exact ⟨_, _, _, hr⟩

theorem resolveParent_onlyFetch (w : World) (purl : Str) :
    ∀ r ∈ (resolveParent w purl).1, ∃ a b c, r = Req.fetchIssue a b c := by
  intro r hr
  unfold resolveParent at hr
  cases hsp : split_github_issue_url purl with
  | error e => rw [hsp] at hr; simp at hr
  | ok pi =>
    rw [hsp] at hr
    simp only [fetch_issue_details] at hr
    cases hw : w.fetchIssue pi.owner pi.repo pi.issue_id with
    | error e =>
      rw [hw] at hr
      simp at hr
      exact ⟨_, _, _, hr⟩
    | ok d =>
      rw [hw] at hr
      cases hb : d.body with
      | none => simp [hb] at hr; exact ⟨_, _, _, hr⟩
      | some pb =>
        cases hh : d.html_url with
        | none => simp [hb, hh] at hr; exact ⟨_, _, _, hr⟩
        | some hurl =>
          rcases hnode : fetch_issue_node_id w hurl with ⟨log2, res2⟩
          cases res2 with
          | error e =>
            simp [hb, hh, hnode] at hr
            rcases hr with hm | hm
            · exact ⟨_, _, _, hm⟩
            · have h9 := fetch_issue_node_id_onlyFetch w hurl r
              rw [hnode] at h9
              exact h9 hm
          | ok nid =>
            simp [hb, hh, hnode] at hr
            rcases hr with hm | hm
            · exact ⟨_, _, _, hm⟩
            · have h9 := fetch_issue_node_id_onlyFetch w hurl r
              rw [hnode] at h9
              exact h9 hm

theorem create_issue_log_noPatch (w : World) (o rp ti d st : Str) :
    hasPatchBody (create_issue w o rp ti d st).1 = false := by
  unfold create_issue
  cases hw : w.postCreate o rp ti d with
  | error e => simp [hasPatchBody]
  | ok resp =>
    by_cases h2 : resp.status = 201
    · by_cases h3 : st = ("closed").data
      · simp [h2, h3, hasPatchBody]
      · simp [h2, h3, hasPatchBody]
    · simp [h2, hasPatchBody]

theorem fetch_issue_details_by_url_onlyFetch (w : World) (u : Str) :
    ∀ r ∈ (fetch_issue_details_by_url w u).1, ∃ a b c, r = Req.fetchIssue a b c := by
  intro r hr
  unfold fetch_issue_details_by_url at hr
  cases hsp : split_github_issue_url u with
  | error e => rw [hsp] at hr; simp at hr
  | ok p =>
    rw [hsp] at hr
    simp only [fetch_issue_details] at hr
    simp at hr
    exact ⟨_, _, _, hr⟩

theorem create_reference_issue_log_noPatch (w : World) (ro rr : Option Str) (u : Str) :
    hasPatchBody (create_reference_issue w ro rr u).1 = false := by
  unfold create_reference_issue
  rcases hf : fetch_issue_details_by_url w u with ⟨flog, fres⟩
  have hflog : hasPatchBody flog = false := by
    have h1 := fetch_issue_details_by_url_onlyFetch w u
    rw [hf] at h1
    exact (onlyFetch_no_reqs flog h1).1
  cases fres with
  | error e => simpa using hflog
  | ok details =>
    cases htitle : details.title with
    | none => simp [htitle, hflog]
    | some title =>
      cases hstate : details.state with
      | none => simp [htitle, hstate, hflog]
      | some st =>
        cases hsp : split_github_issue_url u with
        | error e => simp [htitle, hstate, hsp, hflog]
        | ok parts =>
          simp [htitle, hstate, hsp, hasPatchBody_append, hflog, create_issue_log_noPatch]

theorem createRefs_log_noPatch (w : World) (ro rr : Option Str) (us : List Str) :
    hasPatchBody (createRefs w ro rr us).1 = false := by
  induction us with
  | nil => rfl
  | cons u rest ih =>
    unfold createRefs
    rcases hc : create_reference_issue w ro rr u with ⟨clog, cres⟩
    have hclog : hasPatchBody clog = false := by
      have h1 := create_reference_issue_log_noPatch w ro rr u
      rw [hc] at h1
      exact h1
    rcases hrec : createRefs w ro rr rest with ⟨tlog, refs, errs⟩
    have htlog : hasPatchBody tlog = false := by
      rw [hrec] at ih
      exact ih
    cases cres with
    | ok ref => simp [hasPatchBody_append, hclog, htlog]
    | error e => simp [hasPatchBody_append, hclog, htlog]

theorem link_log_noPatch (w : World) (p c : Str) :
    hasPatchBody (link_parent_issue_and_sub_issue w p c).1 = false := by
  unfold link_parent_issue_and_sub_issue
  cases hw : w.postGraphql p c with
  | error e => simp [hasPatchBody]
  | ok errs =>
    by_cases h2 : errs.length > 0
    · simp [h2, hasPatchBody]
    · simp [h2, hasPatchBody]

theorem linkAll_log_noPatch (w : World) (pid : Str) (us : List Str) :
    hasPatchBody (linkAll w pid us).1 = false := by
  induction us with
  | nil => rfl
  | cons u rest ih =>
    unfold linkAll
    rcases hrec : linkAll w pid rest with ⟨tlog, errs⟩
    have htlog : hasPatchBody tlog = false := by
      rw [hrec] at ih
      exact ih
    rcases hn : fetch_issue_node_id w u with ⟨flog, nres⟩
    have hflog : hasPatchBody flog = false := by
      have h1 := fetch_issue_node_id_onlyFetch w u
      rw [hn] at h1
      exact (onlyFetch_no_reqs flog h1).1
    cases nres with
    | error e => simp [hasPatchBody_append, hflog, htlog]
    | ok sid =>
      rcases hl : link_parent_issue_and_sub_issue w pid sid with ⟨llog, lres⟩
      have hllog : hasPatchBody llog = false := by
        have h1 := link_log_noPatch w pid sid
        rw [hl] at h1
        exact h1
      cases lres with
      | error e => simp [hl, hasPatchBody_append, hflog, hllog, htlog]
      | ok b => simp [hl, hasPatchBody_append, hflog, hllog, htlog]

/-! ## Path characterizations of `create_sub_issues` -/

theorem create_sub_issues_parentFailed (w : World) (purl : Str) (ro rr : Option Str)
    (rlog : List Req) (e : Str) (hres : resolveParent w purl = (rlog, Except.error e)) :
    create_sub_issues w purl ro rr = ⟨rlog, 1, 0, Outcome.parentFailed⟩ := by
  unfold create_sub_issues
  rw [hres]

theorem create_sub_issues_refRepoMissing (w : World) (purl : Str) (ro rr : Option Str)
    (rlog : List Req) (p : ParentInfo) (hres : resolveParent w purl = (rlog, Except.ok p))
    (hpre : (classifyTasks p.owner (extract_tasks p.body)).different_owner_urls.length > 0 ∧
      (rr = none ∨ ro = none)) :
    create_sub_issues w purl ro rr
      = ⟨rlog, 1, (classifyTasks p.owner (extract_tasks p.body)).error_count,
          Outcome.refRepoMissing⟩ := by
  unfold create_sub_issues
  rw [hres]
  simp only [if_pos hpre]

theorem create_sub_issues_main (w : World) (purl : Str) (ro rr : Option Str)
    (rlog : List Req) (p : ParentInfo) (clog : List Req) (refs : List Str) (rerrs : Nat)
    (llog : List Req) (lerrs : Nat)
    (hres : resolveParent w purl = (rlog, Except.ok p))
    (hpre : ¬((classifyTasks p.owner (extract_tasks p.body)).different_owner_urls.length > 0 ∧
      (rr = none ∨ ro = none)))
    (hcr : createRefs w ro rr
      (classifyTasks p.owner (extract_tasks p.body)).different_owner_urls = (clog, refs, rerrs))
    (hla : linkAll w p.nodeId
      ((classifyTasks p.owner (extract_tasks p.body)).same_owner_urls ++ refs) = (llog, lerrs)) :
    create_sub_issues w purl ro rr
      = ⟨rlog ++ clog ++ llog
            ++ (finalize w p
              ((classifyTasks p.owner (extract_tasks p.body)).same_owner_urls ++ refs)
              (classifyTasks p.owner (extract_tasks p.body)).non_issue_tasks
              ((classifyTasks p.owner (extract_tasks p.body)).error_count + rerrs + lerrs)).1,
          (finalize w p
              ((classifyTasks p.owner (extract_tasks p.body)).same_owner_urls ++ refs)
              (classifyTasks p.owner (extract_tasks p.body)).non_issue_tasks
              ((classifyTasks p.owner (extract_tasks p.body)).error_count + rerrs + lerrs)).2.1,
          (classifyTasks p.owner (extract_tasks p.body)).error_count + rerrs + lerrs,
          (finalize w p
              ((classifyTasks p.owner (extract_tasks p.body)).same_owner_urls ++ refs)
              (classifyTasks p.owner (extract_tasks p.body)).non_issue_tasks
              ((classifyTasks p.owner (extract_tasks p.body)).error_count + rerrs + lerrs)).2.2⟩ := by
  unfold create_sub_issues
  rw [hres]
  simp only [if_neg hpre, hcr, hla]

theorem finalize_pos_errors (w : World) (p : ParentInfo) (same : List Str)
    (non : List Task) (errs : Nat) (h : 0 < errs) :
    finalize w p same non errs = ([], 1, Outcome.errorsFound) := by
  unfold finalize
  rw [if_pos h]

theorem finalize_zero_nonempty (w : World) (p : ParentInfo) (same : List Str)
    (non : List Task) (nb : Str) (hs : same ≠ [])
    (hrep : replace_tasklist_in_issue_body p.body
        (if non ≠ [] then create_tasklist_body non else []) = Except.ok nb) :
    finalize w p same non 0
      = ([Req.patchBody p.owner p.repo p.num nb], 0,
          if w.patchBody p.owner p.repo p.num nb ≠ 200
          then Outcome.patchFailed
          else if non ≠ [] then Outcome.tasklistUpdated else Outcome.tasklistRemoved) := by
  unfold finalize
  have h0 : ¬ (0 : Nat) > 0 := by omega
  rw [if_neg h0, if_pos (List.length_pos.mpr hs)]
  by_cases hn : non = []
  · rw [if_neg (by simp [hn] : ¬ ((0 : Nat) = 0 ∧ non.length > 0))]
    rw [if_neg (by simp [hn] : ¬ non ≠ [])] at hrep
    rw [hrep]
    simp [hn]
  · rw [if_pos (⟨rfl, List.length_pos.mpr hn⟩ : (0 : Nat) = 0 ∧ non.length > 0)]
    rw [if_pos hn] at hrep
    rw [hrep]
    simp [hn, List.length_pos.mpr hn]

theorem finalize_zero_empty (w : World) (p : ParentInfo) (non : List Task) :
    finalize w p [] non 0 = ([], 0, Outcome.nothingChanged) := by
  unfold finalize
  simp

/-! ## Claim C1 -/

/-- C1: whenever the final per-task error counter of a run of
`create_sub_issues` is positive, the request log contains no parent-body
PATCH and the run exits with status 1 — the parent body stays exactly as
fetched. -/
theorem C1_parent_body_untouched_on_errors (w : World) (purl : Str) (ro rr : Option Str)
    (h : 0 < (create_sub_issues w purl ro rr).errors) :
    hasPatchBody (create_sub_issues w purl ro rr).log = false ∧
      (create_sub_issues w purl ro rr).exitCode = 1 := by
  rcases hres : resolveParent w purl with ⟨rlog, res⟩
  have hrlog : hasPatchBody rlog = false := by
    have h1 := resolveParent_onlyFetch w purl
    rw [hres] at h1
    exact (onlyFetch_no_reqs rlog h1).1
  cases res with
  | error e =>
    rw [create_sub_issues_parentFailed w purl ro rr rlog e hres] at h
    simp at h
  | ok p =>
    by_cases hpre : (classifyTasks p.owner (extract_tasks p.body)).different_owner_urls.length > 0
        ∧ (rr = none ∨ ro = none)
    · rw [create_sub_issues_refRepoMissing w purl ro rr rlog p hres hpre]
      exact ⟨hrlog, rfl⟩
    · rcases hcr : createRefs w ro rr
          (classifyTasks p.owner (extract_tasks p.body)).different_owner_urls
        with ⟨clog, refs, rerrs⟩
      rcases hla : linkAll w p.nodeId
          ((classifyTasks p.owner (extract_tasks p.body)).same_owner_urls ++ refs)
        with ⟨llog, lerrs⟩
      rw [create_sub_issues_main w purl ro rr rlog p clog refs rerrs llog lerrs
        hres hpre hcr hla] at h ⊢
      have herr : 0 < (classifyTasks p.owner (extract_tasks p.body)).error_count
          + rerrs + lerrs := h
      rw [finalize_pos_errors _ _ _ _ _ herr]
      have hclog : hasPatchBody clog = false := by
        have h1 := createRefs_log_noPatch w ro rr
          (classifyTasks p.owner (extract_tasks p.body)).different_owner_urls
        rw [hcr] at h1
        exact h1
      have hllog : hasPatchBody llog = false := by
        have h1 := linkAll_log_noPatch w p.nodeId
          ((classifyTasks p.owner (extract_tasks p.body)).same_owner_urls ++ refs)
        rw [hla] at h1
        exact h1
      constructor
      · show hasPatchBody (rlog ++ clog ++ llog ++ []) = false
        rw [List.append_nil, hasPatchBody_append, hasPatchBody_append, hrlog, hclog, hllog]
        rfl
      · rfl

/-! ## Claim C7 -/

/-- C7: when the different-owner bucket is non-empty and no reference
repository was configured, the run exits with status 1 without issuing a
single issue-creation or link request. -/
theorem C7_fatal_without_refrepo (w : World) (purl : Str) (rlog : List Req) (p : ParentInfo)
    (hres : resolveParent w purl = (rlog, Except.ok p))
    (hdiff : (classifyTasks p.owner (extract_tasks p.body)).different_owner_urls ≠ []) :
    (create_sub_issues w purl none none).exitCode = 1 ∧
      hasCreateReq (create_sub_issues w purl none none).log = false ∧
      hasLinkReq (create_sub_issues w purl none none).log = false := by
  have hpre : (classifyTasks p.owner (extract_tasks p.body)).different_owner_urls.length > 0
      ∧ ((none : Option Str) = none ∨ (none : Option Str) = none) :=
    ⟨List.length_pos.mpr hdiff, Or.inl rfl⟩
  rw [create_sub_issues_refRepoMissing w purl none none rlog p hres hpre]
  have h1 := resolveParent_onlyFetch w purl
  rw [hres] at h1
  obtain ⟨-, h2, h3⟩ := onlyFetch_no_reqs rlog h1
  exact ⟨rfl, h2, h3⟩

/-! ## Claim C2 -/

/-- C2 (counterexample): a zero-error run that links one sub-issue and has
one remaining non-issue task, of text `\d`, does not rewrite the parent
body: the re-serialized checklist is handed to `re.sub` as its replacement
template, the `\d` in it raises `re.error` before any substitution, the
bare `except` of line 399 swallows the exception, and the run ends with no
parent-body PATCH and exit status 0 — against the claim, which promises a
rewrite whenever tasks were linked and zero errors were counted. -/
theorem C2_counterexample :
    create_sub_issues w4 (("https://github.com/orgA/r/issues/9").data) none none
      = ⟨[Req.fetchIssue (("orgA").data) (("r").data) (("9").data),
          Req.fetchIssue (("orgA").data) (("r").data) (("9").data),
          Req.fetchIssue (("orgA").data) (("r").data) (("5").data),
          Req.link (("P").data) (("S").data)],
          0, 0, Outcome.replaceFailed⟩ ∧
      hasPatchBody (create_sub_issues w4
          (("https://github.com/orgA/r/issues/9").data) none none).log = false := by
  refine ⟨by decide, by decide⟩

/-- C2 (amended): in a run that reaches the finalize step with zero
accumulated errors and whose replacement computation succeeds with new
body `nb` (which it does whenever the remaining non-issue task texts are
backslash-free, by the amended C4), if any URL was linked the parent body
is PATCHed exactly once with `nb` — the tasklist replaced by the
re-serialized non-issue tasks, or by the empty string when none remain —
and the run exits 0; if nothing was linked the body is left untouched and
the run reports that nothing changed. -/
theorem C2_zero_error_finalize_amended (w : World) (purl : Str) (ro rr : Option Str)
    (rlog : List Req) (p : ParentInfo) (clog : List Req) (refs : List Str) (llog : List Req)
    (nb : Str)
    (hres : resolveParent w purl = (rlog, Except.ok p))
    (hpre : ¬((classifyTasks p.owner (extract_tasks p.body)).different_owner_urls.length > 0
      ∧ (rr = none ∨ ro = none)))
    (herr : (classifyTasks p.owner (extract_tasks p.body)).error_count = 0)
    (hcr : createRefs w ro rr
      (classifyTasks p.owner (extract_tasks p.body)).different_owner_urls = (clog, refs, 0))
    (hla : linkAll w p.nodeId
      ((classifyTasks p.owner (extract_tasks p.body)).same_owner_urls ++ refs) = (llog, 0))
    (hrep : replace_tasklist_in_issue_body p.body
        (if (classifyTasks p.owner (extract_tasks p.body)).non_issue_tasks ≠ []
          then create_tasklist_body
            (classifyTasks p.owner (extract_tasks p.body)).non_issue_tasks
          else []) = Except.ok nb) :
    ((classifyTasks p.owner (extract_tasks p.body)).same_owner_urls ++ refs ≠ [] →
        create_sub_issues w purl ro rr
          = ⟨rlog ++ clog ++ llog ++ [Req.patchBody p.owner p.repo p.num nb],
              0, 0,
              if w.patchBody p.owner p.repo p.num nb ≠ 200
              then Outcome.patchFailed
              else if (classifyTasks p.owner (extract_tasks p.body)).non_issue_tasks ≠ []
                then Outcome.tasklistUpdated else Outcome.tasklistRemoved⟩) ∧
      ((classifyTasks p.owner (extract_tasks p.body)).same_owner_urls ++ refs = [] →
        create_sub_issues w purl ro rr
          = ⟨rlog ++ clog ++ llog, 0, 0, Outcome.nothingChanged⟩) := by
  have hmain := create_sub_issues_main w purl ro rr rlog p clog refs 0 llog 0
    hres hpre hcr hla
  rw [herr] at hmain
  constructor
  · intro hne
    rw [hmain, finalize_zero_nonempty w p _ _ nb hne hrep]
  · intro hnil
    rw [hmain, hnil, finalize_zero_empty]
    simp

/-! ## Claim C10 -/

/-- C10: a `create_issue` with state `closed` whose POST returns 201 logs
the follow-up state PATCH but never inspects its response: even when that
patch fails, the new issue's URL is returned as success, and
`create_reference_issue` likewise reports success for a closed referenced
issue whose state update failed. -/
theorem C10_create_closed_fire_and_forget
    (w : World) (o rp ti d : Str) (resp : CreateResp)
    (ro rr : Option Str) (u : Str) (det : IssueJson) (parts : IssueRef) (t0 : Str)
    (resp2 : CreateResp)
    (hc : w.postCreate o rp ti d = Except.ok resp)
    (h201 : resp.status = 201)
    (hpatch : w.patchState o rp resp.number ≠ 200)
    (hsp : split_github_issue_url u = Except.ok parts)
    (hfetch : w.fetchIssue parts.owner parts.repo parts.issue_id = Except.ok det)
    (htitle : det.title = some t0)
    (hstate : det.state = some (("closed").data))
    (hc2 : w.postCreate (orNoneStr ro) (orNoneStr rr)
        (parts.owner ++ ['/'] ++ parts.repo ++ ['#'] ++ parts.issue_id ++ [':'] ++ t0)
        (("This issue is a reference/placeholder to: [").data
          ++ (parts.owner ++ ['/'] ++ parts.repo ++ ['#'] ++ parts.issue_id ++ [':'] ++ t0)
          ++ ("](").data ++ u ++ (")").data) = Except.ok resp2)
    (h201b : resp2.status = 201)
    (hpatch2 : w.patchState (orNoneStr ro) (orNoneStr rr) resp2.number ≠ 200) :
    create_issue w o rp ti d (("closed").data)
        = ([Req.createIssue o rp ti d, Req.patchState o rp resp.number],
            Except.ok resp.html_url) ∧
      (create_reference_issue w ro rr u).2 = Except.ok resp2.html_url := by
  constructor
  · unfold create_issue
    rw [hc]
    simp [h201]
  · unfold create_reference_issue fetch_issue_details_by_url
    rw [hsp]
    simp only [fetch_issue_details]
    rw [hfetch]
    simp only [htitle, hstate, hsp, create_issue, hc2, h201b, eq_self_iff_true, if_true]

/-- C1 (witness): in the world `w1` the sub-issue fetch fails, one error
is counted, no PATCH is made and the run exits 1. -/
theorem C1_parent_body_untouched_on_errors_witness :
    0 < (create_sub_issues w1 (("https://github.com/a/b/issues/1").data) none none).errors ∧
      (hasPatchBody (create_sub_issues w1
          (("https://github.com/a/b/issues/1").data) none none).log = false ∧
        (create_sub_issues w1 (("https://github.com/a/b/issues/1").data) none none).exitCode = 1) :=
  ⟨by decide, C1_parent_body_untouched_on_errors w1
    (("https://github.com/a/b/issues/1").data) none none (by decide)⟩

/-- C7 (witness): in the world `w3` with no reference repo configured the
run exits 1 with no create and no link request. -/
theorem C7_fatal_without_refrepo_witness :
    (create_sub_issues w3 (("https://github.com/orgA/r/issues/9").data) none none).exitCode = 1 ∧
      hasCreateReq (create_sub_issues w3
        (("https://github.com/orgA/r/issues/9").data) none none).log = false ∧
      hasLinkReq (create_sub_issues w3
        (("https://github.com/orgA/r/issues/9").data) none none).log = false :=
  C7_fatal_without_refrepo w3 (("https://github.com/orgA/r/issues/9").data)
    [Req.fetchIssue (("orgA").data) (("r").data) (("9").data),
      Req.fetchIssue (("orgA").data) (("r").data) (("9").data)]
    ⟨("orgA").data, ("r").data, ("9").data, w3Body, ("P").data⟩
    (by decide) (by decide)

/-- C2 (witness): the spec's end-to-end example in the world `w2`: one
link call for issue 5, the parent body rewritten to keep only
`write docs`, exit 0. -/
theorem C2_zero_error_finalize_amended_witness :
    create_sub_issues w2 (("https://github.com/orgA/r/issues/9").data) none none
      = ⟨[Req.fetchIssue (("orgA").data) (("r").data) (("9").data),
          Req.fetchIssue (("orgA").data) (("r").data) (("9").data),
          Req.fetchIssue (("orgA").data) (("r").data) (("5").data),
          Req.link (("P").data) (("S").data),
          Req.patchBody (("orgA").data) (("r").data) (("9").data)
            (("Intro\n```[tasklist]\n### Tasks\n- [ ] write docs\n```\nOutro").data)],
          0, 0, Outcome.tasklistUpdated⟩ :=
  ((C2_zero_error_finalize_amended w2 (("https://github.com/orgA/r/issues/9").data) none none
      [Req.fetchIssue (("orgA").data) (("r").data) (("9").data),
        Req.fetchIssue (("orgA").data) (("r").data) (("9").data)]
      ⟨("orgA").data, ("r").data, ("9").data, w2Body, ("P").data⟩
      [] []
      [Req.fetchIssue (("orgA").data) (("r").data) (("5").data),
        Req.link (("P").data) (("S").data)]
      (("Intro\n```[tasklist]\n### Tasks\n- [ ] write docs\n```\nOutro").data)
      (by decide) (by decide) (by decide) (by decide) (by decide) (by decide)).1
    (by decide)).trans (by decide)

/-- C10 (witness): in the world `w10` the create POST returns 201 and the
state PATCH fails with 500, yet both `create_issue` and
`create_reference_issue` report the new issue URL as success. -/
theorem C10_create_closed_fire_and_forget_witness :
    create_issue w10 (("x").data) (("y").data) (("t").data) (("d").data) (("closed").data)
        = ([Req.createIssue (("x").data) (("y").data) (("t").data) (("d").data),
            Req.patchState (("x").data) (("y").data) (("8").data)],
           Except.ok (("https://github.com/x/y/issues/8").data)) ∧
      (create_reference_issue w10 (some (("x").data)) (some (("y").data))
          (("https://github.com/o2/r2/issues/3").data)).2
        = Except.ok (("https://github.com/x/y/issues/8").data) :=
  C10_create_closed_fire_and_forget w10 (("x").data) (("y").data) (("t").data) (("d").data)
    ⟨201, ("https://github.com/x/y/issues/8").data, ("8").data, []⟩
    (some (("x").data)) (some (("y").data)) (("https://github.com/o2/r2/issues/3").data)
    ⟨none, none, none, some (("T").data), some (("closed").data)⟩
    ⟨("o2").data, ("r2").data, ("3").data⟩ (("T").data)
    ⟨201, ("https://github.com/x/y/issues/8").data, ("8").data, []⟩
    (by decide) (by decide) (by decide) (by decide) (by decide) (by decide) (by decide)
    (by decide) (by decide) (by decide)

end T2S
